import Mathlib

/-!
A verification development for the NavAI real-time interview backend
(`backend/server.py`, `backend/modules/vision_processor.py`,
`backend/modules/config.py`, `backend/modules/report_generator.py`).

The Python code is shallowly embedded:

* Python strings are `List Char` (`PyStr`); `str.split()` / `str.strip()`
  are re-implemented over that representation.
* Wall-clock timestamps (`time.time()`) are rationals supplied as explicit
  arguments at each point where the source reads the clock.
* Raw audio (`bytes`) is `List Nat` (byte values); only concatenation and
  length are used by the code.
* Video frames are modelled at the fixed 320x180 RGB comparison resolution
  used by `VisionProcessor._detect_change` (a frame is a function from a
  flat channel index to a rational pixel value in [0, 255]); the LANCZOS
  downsample of the full-resolution image to that grid is outside the
  embedding.
* External collaborators (Deepgram transcription, the Groq evaluation and
  vision models, TTS) are oracles: their results are passed in as
  arguments to the handler that consumes them.
* Every fallible/effectful call site of interest is instrumented by an
  action trace (`SAction`) returned next to the successor state.
-/

/-- Python strings are modelled as lists of characters. -/
abbrev PyStr := List Char

/-- Whitespace test backing Python `str.split()` / `str.strip()` for the
characters that occur in this data flow (space, tab, CR, LF). -/
def pyIsSpace (c : Char) : Bool := c.isWhitespace

/-- Scanner for `pyWords`: `cur` holds the reversed word in progress. -/
def pyWordsAux : List Char → List Char → List PyStr
  | [], cur => if cur = [] then [] else [cur.reverse]
  | c :: rest, cur =>
    if pyIsSpace c then
      if cur = [] then pyWordsAux rest [] else cur.reverse :: pyWordsAux rest []
    else pyWordsAux rest (c :: cur)

/-- Python `s.split()` with no separator: maximal runs of non-whitespace. -/
def pyWords (l : PyStr) : List PyStr := pyWordsAux l []

/-- `len(s.split())` — the word count used by the finalization check
(`server.py`, `process_accumulated_audio`). -/
def wordCount (l : PyStr) : Nat := (pyWords l).length

/-- Python `s.strip()`: drop leading and trailing whitespace. -/
def pyStrip (l : PyStr) : PyStr :=
  ((l.dropWhile pyIsSpace).reverse.dropWhile pyIsSpace).reverse

lemma pyWordsAux_eq_nil (l : List Char) (h : ∀ c ∈ l, pyIsSpace c = true) :
    pyWordsAux l [] = [] := by
  induction l with
  | nil => rfl
  | cons c rest ih =>
    have hc := h c (List.mem_cons_self _ _)
    simp only [pyWordsAux, hc, if_pos rfl, if_true]
    exact ih fun d hd => h d (List.mem_cons_of_mem _ hd)

lemma pyStrip_eq_nil (l : PyStr) (h : pyStrip l = []) :
    ∀ c ∈ l, pyIsSpace c = true := by
  intro c hc
  have h2 : (l.dropWhile pyIsSpace).reverse.dropWhile pyIsSpace = [] := by
    simpa [pyStrip] using congrArg List.reverse h
  have h3 : ∀ a ∈ (l.dropWhile pyIsSpace).reverse, pyIsSpace a = true :=
    List.dropWhile_eq_nil_iff.mp h2
  have h4 : ∀ a ∈ l.dropWhile pyIsSpace, pyIsSpace a = true := by
    intro a ha
    exact h3 a (List.mem_reverse.mpr ha)
  have h5 : l.takeWhile pyIsSpace ++ l.dropWhile pyIsSpace = l :=
    List.takeWhile_append_dropWhile pyIsSpace l
  rw [← h5] at hc
  rcases List.mem_append.mp hc with h6 | h6
  · exact List.mem_takeWhile_imp h6
  · exact h4 c h6

/-- An accumulated transcript with at least one word survives `strip()`:
this is why `word_count >= 8` guarantees that `finalize_transcript` does
not early-return. -/
lemma wordCount_pos_pyStrip_ne_nil (l : PyStr) (h : 1 ≤ wordCount l) :
    pyStrip l ≠ [] := by
  intro hnil
  have hall := pyStrip_eq_nil l hnil
  have : pyWords l = [] := pyWordsAux_eq_nil l hall
  simp [wordCount, this] at h

/-!  ## Configuration (`backend/modules/config.py`)

Default values of the environment-driven settings (no overriding
environment in the model).  -/

namespace Config

/-- `VISION_CHANGE_THRESHOLD` default `0.10`. -/
def VISION_CHANGE_THRESHOLD : ℚ := 1 / 10

/-- `VISION_MIN_INTERVAL` default `3.0` (seconds). -/
def VISION_MIN_INTERVAL : ℚ := 3

end Config

/-!  ## Vision processor (`backend/modules/vision_processor.py`)

Frames are modelled at the 320x180 RGB comparison resolution that
`_detect_change` resizes both frames to; `numPixelChannels = 320*180*3`
is the flat channel count of that grid. -/

/-- Flat channel count of the 320x180 RGB comparison grid. -/
def numPixelChannels : Nat := 320 * 180 * 3

/-- A frame at comparison resolution: rational value in [0,255] per channel. -/
abbrev DFrame := Fin numPixelChannels → ℚ

/-- `np.mean(np.abs(cur - last)) / 255.0` of `_detect_change`: mean absolute
per-channel difference of the two comparison-resolution frames, normalized
to [0,1] by 255. -/
def frameDiff (cur last : DFrame) : ℚ :=
  ((∑ i, |cur i - last i|) / (numPixelChannels : ℚ)) / 255

/-- Mutable state of a `VisionProcessor` (`self._last_frame`,
`self._last_analysis`, `self._last_api_call`). -/
structure VisionState where
  last_frame : Option DFrame
  last_analysis : PyStr
  last_api_call : ℚ

/-- `VisionProcessor.__init__` frame-comparison state. -/
def VisionProcessor.init : VisionState :=
  { last_frame := none, last_analysis := [], last_api_call := 0 }

/-- Outcome of the Groq vision API call inside `_analyze_frame`
(an oracle: success with some content, an exception carrying `429`/`rate`,
or any other exception). -/
inductive ApiOutcome
  | ok (content : PyStr)
  | rateLimited
  | otherError

/-- `VisionProcessor._analyze_frame`: returns the stripped model content on
success; on a rate-limit exception returns the cached `_last_analysis`; on
any other exception returns the fixed unavailability text.  The function
never raises. -/
def VisionProcessor.analyze_frame (outcome : ApiOutcome) (s : VisionState) : PyStr :=
  match outcome with
  | .ok content => pyStrip content
  | .rateLimited => s.last_analysis
  | .otherError => "Screen content analysis temporarily unavailable".toList

/-- `VisionProcessor._detect_change`: `True` when no prior analyzed frame is
stored, or when the normalized mean absolute difference exceeds the
threshold. -/
def VisionProcessor.detect_change (cur : DFrame) (s : VisionState) : Bool :=
  match s.last_frame with
  | none => true
  | some lf => decide (Config.VISION_CHANGE_THRESHOLD < frameDiff cur lf)

/-- `VisionProcessor.process_frame` at clock value `now` with the vision API
oracle `outcome`: returns `((has_significant_change, analysis?), state)`.
The stored frame, description and call timestamp are updated exactly when
the change gate and the rate-limit gate both pass. -/
def VisionProcessor.process_frame (now : ℚ) (cur : DFrame) (outcome : ApiOutcome)
    (s : VisionState) : (Bool × Option PyStr) × VisionState :=
  if VisionProcessor.detect_change cur s = false then ((false, none), s)
  else if now - s.last_api_call < Config.VISION_MIN_INTERVAL then ((false, none), s)
  else
    let analysis := VisionProcessor.analyze_frame outcome s
    ((true, some analysis),
     { last_frame := some cur, last_analysis := analysis, last_api_call := now })

/-!  ## Interview session (`backend/server.py`, class `InterviewSession`)

The WebSocket transport, TTS synthesis and the Groq/Deepgram HTTP calls
are oracles; the observable effects relevant to the specified properties
are recorded in an action trace. -/

/-- One entry of `self.history` as appended by
`InterviewSession.generate_response` (the dict literal at
`server.py:339-355`); `timestamp` is the clock value of the appending
call. -/
structure Turn where
  slide : Nat
  transcript : PyStr
  score : ℚ
  technical_depth : ℚ
  clarity : ℚ
  visual_quality : ℚ
  is_final_for_topic : Bool
  conflict : Bool
  conflict_description : PyStr
  feedback : PyStr
  question : PyStr
  topic : PyStr
  response_type : PyStr
  screen_context : PyStr
  timestamp : ℚ
deriving DecidableEq

/-- Result of `self.brain.evaluate(...)`: a JSON object read with
`dict.get`, so every field is optional (`none` = key absent). -/
structure Evaluation where
  score : Option ℚ := none
  technical_depth : Option ℚ := none
  clarity : Option ℚ := none
  visual_quality : Option ℚ := none
  is_final_for_topic : Option Bool := none
  conflict_detected : Option Bool := none
  conflict_description : Option PyStr := none
  feedback : Option PyStr := none
  next_response : Option PyStr := none
  next_question : Option PyStr := none
  topic : Option PyStr := none
  response_type : Option PyStr := none
  presenter_asked_question : Option Bool := none
deriving DecidableEq

/-- The mutable fields of an `InterviewSession` (`__init__`,
`server.py:165-205`).  `screen_share_lost_time` is the recovery-deadline
base timestamp of the interruption state machine. -/
structure SessionState where
  is_active : Bool
  is_ai_speaking : Bool
  screen_context : PyStr
  screen_contexts : List PyStr
  history : List Turn
  slide_count : Nat
  audio_chunks : List (List Nat)
  last_transcript_time : ℚ
  accumulated_transcript : PyStr
  audio_encoding : PyStr
  audio_sample_rate : Nat
  last_question_time : ℚ
  pending_response : Bool
  screen_share_active : Bool
  screen_share_lost_time : Option ℚ
  awaiting_screen_reshare : Bool
  is_stopped : Bool
deriving DecidableEq

/-- `self.min_question_interval = 8.0`. -/
def min_question_interval : ℚ := 8

/-- `self.screen_reconnect_timeout = 30.0`. -/
def screen_reconnect_timeout : ℚ := 30

/-- Flush cadence of `handle_audio_chunk` (`>= 3.0` seconds). -/
def flush_interval : ℚ := 3

/-- Minimum drained-buffer size accepted by `process_accumulated_audio`
(16000 bytes, about half a second of 16 kHz 16-bit audio). -/
def min_audio_bytes : Nat := 16000

/-- Word-count threshold of `process_accumulated_audio` (8 words). -/
def word_threshold : Nat := 8

/-- Observable effects of the handlers, in program order.  `transcribe`
is a call of the Deepgram collaborator, `evalInvoked` a call of
`self.brain.evaluate`, `finalized` the `transcript_final` event,
`terminated` a `stop()` call that passed the idempotence guard,
`reportGenerated` an invocation of `_generate_and_send_report`. -/
inductive SAction
  | transcribe (payload : List Nat) (t : ℚ)
  | finalized (text : PyStr)
  | evalInvoked (transcript : PyStr)
  | speak (text : PyStr)
  | screenUpdate (context : PyStr)
  | terminated (autoEnded : Bool)
  | reportGenerated
  | stoppedPopup
  | interviewComplete
deriving DecidableEq

/-- `InterviewSession.__init__` followed by `start()`: `tInit` is the
construction clock (`self.last_transcript_time = time.time()`), `tStart`
the clock after the opening has been spoken
(`self.last_question_time = time.time()`, `server.py:418`). -/
def startedState (tInit tStart : ℚ) : SessionState :=
  { is_active := true
    is_ai_speaking := false
    screen_context := []
    screen_contexts := []
    history := []
    slide_count := 0
    audio_chunks := []
    last_transcript_time := tInit
    accumulated_transcript := []
    audio_encoding := "linear16".toList
    audio_sample_rate := 16000
    last_question_time := tStart
    pending_response := false
    screen_share_active := true
    screen_share_lost_time := none
    awaiting_screen_reshare := false
    is_stopped := false }

/-- `InterviewSession.generate_response` (`server.py:308-382`).  `now` is
the clock at the pacing check, `tSpeak` the clock re-read after the TTS
playback (`self.last_question_time = time.time()`, line 372), `ev` the
result `self.brain.evaluate` would return.  The pacing check runs first;
when it fails the turn is dropped without invoking the evaluator. -/
def InterviewSession.generate_response (now tSpeak : ℚ) (ev : Evaluation)
    (transcript : PyStr) (s : SessionState) : SessionState × List SAction :=
  if now - s.last_question_time < min_question_interval ∧ 0 < s.last_question_time then
    (s, [])
  else
    -- evaluation = await self.brain.evaluate(...)
    let acts := [SAction.evalInvoked transcript]
    if ¬ (ev.presenter_asked_question.getD false = true)
        ∧ ev.response_type = some ("proceed".toList) ∧ s.pending_response = true then
      -- they are continuing, do not interrupt
      (s, acts)
    else
      let slide := s.slide_count + 1
      let turn : Turn :=
        { slide := slide
          transcript := transcript
          score := ev.score.getD 5
          technical_depth := ev.technical_depth.getD (ev.score.getD 5)
          clarity := ev.clarity.getD (ev.score.getD 5)
          visual_quality := ev.visual_quality.getD 5
          is_final_for_topic := ev.is_final_for_topic.getD true
          conflict := ev.conflict_detected.getD false
          conflict_description := ev.conflict_description.getD []
          feedback := ev.feedback.getD []
          question := ev.next_response.getD (ev.next_question.getD [])
          topic := ev.topic.getD []
          response_type := ev.response_type.getD []
          screen_context := s.screen_context.take 300
          timestamp := now }
      let s1 := { s with slide_count := slide, history := s.history ++ [turn] }
      let response_text := ev.next_response.getD (ev.next_question.getD [])
      if response_text ≠ [] ∧ pyStrip response_text ≠ [] then
        ({ s1 with last_question_time := tSpeak, pending_response := true },
         acts ++ [SAction.speak response_text])
      else
        (s1, acts)

/-- `InterviewSession.finalize_transcript` (`server.py:275-287`): no-op on
a whitespace-only accumulator; otherwise strips it, clears it, emits the
final transcript and calls `generate_response`. -/
def InterviewSession.finalize_transcript (now tSpeak : ℚ) (ev : Evaluation)
    (s : SessionState) : SessionState × List SAction :=
  if pyStrip s.accumulated_transcript = [] then (s, [])
  else
    let transcript := pyStrip s.accumulated_transcript
    let s1 := { s with accumulated_transcript := [] }
    let r := InterviewSession.generate_response now tSpeak ev transcript s1
    (r.1, SAction.finalized transcript :: r.2)

/-- `InterviewSession.process_accumulated_audio` (`server.py:239-273`):
drains the chunk buffer, discards payloads under `min_audio_bytes`,
otherwise calls the transcription collaborator (oracle result `tr`,
`none` = Deepgram returned nothing), space-joins a truthy result onto the
accumulator and finalizes once the word count reaches the threshold. -/
def InterviewSession.process_accumulated_audio (now tSpeak : ℚ)
    (tr : Option PyStr) (ev : Evaluation) (s : SessionState) :
    SessionState × List SAction :=
  if s.audio_chunks = [] then (s, [])
  else
    let combined := s.audio_chunks.flatten
    let s1 := { s with audio_chunks := [], last_transcript_time := now }
    if combined.length < min_audio_bytes then (s1, [])
    else
      let acts := [SAction.transcribe combined now]
      match tr with
      | none => (s1, acts)
      | some t =>
        if t = [] then (s1, acts)
        else
          let s2 := { s1 with
            accumulated_transcript := s1.accumulated_transcript ++ (' ' :: t) }
          if word_threshold ≤ wordCount s2.accumulated_transcript then
            let r := InterviewSession.finalize_transcript now tSpeak ev s2
            (r.1, acts ++ r.2)
          else
            (s2, acts)

/-- `InterviewSession.handle_audio_chunk` (`server.py:218-237`): appends
the decoded chunk, stores the encoding info, and drains the buffer when
at least `flush_interval` has elapsed since the last drain. -/
def InterviewSession.handle_audio_chunk (now : ℚ) (chunk : List Nat)
    (encoding : PyStr) (sampleRate : Nat) (tr : Option PyStr) (ev : Evaluation)
    (tSpeak : ℚ) (s : SessionState) : SessionState × List SAction :=
  if s.is_active = false then (s, [])
  else
    let s1 := { s with audio_chunks := s.audio_chunks ++ [chunk]
                       audio_encoding := encoding
                       audio_sample_rate := sampleRate }
    if flush_interval ≤ now - s1.last_transcript_time ∧ s1.audio_chunks ≠ [] then
      InterviewSession.process_accumulated_audio now tSpeak tr ev s1
    else
      (s1, [])

/-- `InterviewSession.handle_video_frame` (`server.py:289-306`): the
vision result is the oracle pair `(has_change, analysis)` returned by
`VisionProcessor.process_frame`; a truthy analysis on a changed frame
updates the screen context. -/
def InterviewSession.handle_video_frame (hasChange : Bool)
    (analysis : Option PyStr) (s : SessionState) : SessionState × List SAction :=
  if s.is_active = false then (s, [])
  else
    match analysis with
    | some a =>
      if hasChange = true ∧ a ≠ [] then
        ({ s with screen_context := a, screen_contexts := s.screen_contexts ++ [a] },
         [SAction.screenUpdate (if 200 < a.length then a.take 200 ++ "...".toList else a)])
      else (s, [])
    | none => (s, [])

/-- `InterviewSession.handle_screen_share_lost` (`server.py:420-438`):
records the loss time, raises the awaiting flag, speaks the reshare
notice and spawns the timeout checker. -/
def InterviewSession.handle_screen_share_lost (now : ℚ) (s : SessionState) :
    SessionState × List SAction :=
  if s.is_active = false ∨ s.awaiting_screen_reshare = true then (s, [])
  else
    ({ s with screen_share_active := false
              screen_share_lost_time := some now
              awaiting_screen_reshare := true },
     [SAction.speak ("I noticed you stopped sharing your screen. Please reshare to continue the interview, or click End Interview to finish.".toList)])

/-- `InterviewSession.handle_screen_share_restored` (`server.py:455-470`):
clears the awaiting flag and the loss timestamp, speaks the welcome-back
notice. -/
def InterviewSession.handle_screen_share_restored (s : SessionState) :
    SessionState × List SAction :=
  if s.awaiting_screen_reshare = false then (s, [])
  else
    ({ s with screen_share_active := true
              awaiting_screen_reshare := false
              screen_share_lost_time := none },
     [SAction.speak ("Great, I can see your screen again! Please continue where you left off.".toList)])

/-- `InterviewSession.stop` (`server.py:472-514`).  Idempotent; flushes
any pending audio and transcript, then either auto-generates the report
(`auto_ended` and non-empty history) or emits the ask-user popup.  The
unused `generate_report` parameter of the source is kept.  Note the flags
cleared at `server.py:477-479`: `screen_share_lost_time` is not among
them. -/
def InterviewSession.stop (auto_ended _generate_report : Bool) (now tSpeak : ℚ)
    (tr : Option PyStr) (ev : Evaluation) (s : SessionState) :
    SessionState × List SAction :=
  if s.is_active = false ∨ s.is_stopped = true then (s, [])
  else
    let s1 := { s with is_active := false, is_stopped := true
                       awaiting_screen_reshare := false }
    let r2 := if s1.audio_chunks ≠ [] then
        InterviewSession.process_accumulated_audio now tSpeak tr ev s1
      else (s1, [])
    let r3 := if pyStrip r2.1.accumulated_transcript ≠ [] then
        InterviewSession.finalize_transcript now tSpeak ev r2.1
      else (r2.1, [])
    if auto_ended = true ∧ r3.1.history ≠ [] then
      (r3.1, SAction.terminated auto_ended :: (r2.2 ++ r3.2) ++ [SAction.reportGenerated])
    else
      (r3.1, SAction.terminated auto_ended :: (r2.2 ++ r3.2) ++ [SAction.stoppedPopup])

/-- Body of `InterviewSession._screen_share_timeout_checker`
(`server.py:440-453`) at the moment the 30-second sleep returns: if still
awaiting recovery and active, speaks the closing notice and auto-stops. -/
def InterviewSession.screen_share_timeout_checker (now tSpeak : ℚ)
    (tr : Option PyStr) (ev : Evaluation) (s : SessionState) :
    SessionState × List SAction :=
  if s.awaiting_screen_reshare = true ∧ s.is_active = true then
    let r := InterviewSession.stop true false now tSpeak tr ev s
    (r.1, SAction.speak ("Since the screen share was not restored, I will wrap up the interview now. Thank you for your presentation!".toList) :: r.2)
  else (s, [])

/-- `InterviewSession.generate_report_on_demand` (`server.py:516-536`). -/
def InterviewSession.generate_report_on_demand (s : SessionState) :
    SessionState × List SAction :=
  if s.history = [] then (s, [SAction.interviewComplete])
  else (s, [SAction.reportGenerated, SAction.interviewComplete])

/-- One inbound occurrence dispatched by the WebSocket loop
(`server.py:630-666`) or a timer expiry.  Oracle results for the
collaborator calls the handler may reach are carried in the event. -/
inductive SEvent
  | audio (t : ℚ) (chunk : List Nat) (encoding : PyStr) (sampleRate : Nat)
      (tr : Option PyStr) (ev : Evaluation) (tSpeak : ℚ)
  | video (hasChange : Bool) (analysis : Option PyStr)
  | shareLost (t : ℚ)
  | shareRestored
  | timerFire (t : ℚ) (tr : Option PyStr) (ev : Evaluation) (tSpeak : ℚ)
  | stopCmd (t : ℚ) (tr : Option PyStr) (ev : Evaluation) (tSpeak : ℚ)
  | reportCmd
  | userSpeaking
deriving DecidableEq

/-- Dispatch of one event, following the `msg_type` branches of
`websocket_interview` (a `video` message first performs the implicit
share restoration and re-raises `screen_share_active`). -/
def sessionStep (s : SessionState) (e : SEvent) : SessionState × List SAction :=
  match e with
  | .audio t chunk encoding sampleRate tr ev tSpeak =>
    InterviewSession.handle_audio_chunk t chunk encoding sampleRate tr ev tSpeak s
  | .video hasChange analysis =>
    let r1 := if s.awaiting_screen_reshare = true then
        InterviewSession.handle_screen_share_restored s
      else (s, [])
    let s2 := { r1.1 with screen_share_active := true }
    let r3 := InterviewSession.handle_video_frame hasChange analysis s2
    (r3.1, r1.2 ++ r3.2)
  | .shareLost t => InterviewSession.handle_screen_share_lost t s
  | .shareRestored => InterviewSession.handle_screen_share_restored s
  | .timerFire t tr ev tSpeak =>
    InterviewSession.screen_share_timeout_checker t tSpeak tr ev s
  | .stopCmd t tr ev tSpeak => InterviewSession.stop false false t tSpeak tr ev s
  | .reportCmd => InterviewSession.generate_report_on_demand s
  | .userSpeaking => ({ s with is_ai_speaking := false }, [])

/-- Fold of `sessionStep` over an event list, concatenating the traces. -/
def runSessionAux : SessionState → List SEvent → SessionState × List SAction
  | s, [] => (s, [])
  | s, e :: es =>
    let r := sessionStep s e
    let rest := runSessionAux r.1 es
    (rest.1, r.2 ++ rest.2)

/-- A whole session: `__init__` at `tInit`, `start()` finishing at
`tStart`, then the given events. -/
def runSession (tInit tStart : ℚ) (es : List SEvent) : SessionState × List SAction :=
  runSessionAux (startedState tInit tStart) es

/-!  ## Trace projections used by the claim statements -/

/-- Transcription-collaborator calls in a trace: `(payload, call time)`. -/
def transcribeEvents (tr : List SAction) : List (List Nat × ℚ) :=
  tr.filterMap fun a =>
    match a with
    | .transcribe p t => some (p, t)
    | _ => none

/-- Call times of the transcription collaborator, in program order. -/
def transcribeTimes (tr : List SAction) : List ℚ :=
  (transcribeEvents tr).map Prod.snd

/-- Finalized transcripts (`transcript_final` payloads) in a trace. -/
def finalizedTexts (tr : List SAction) : List PyStr :=
  tr.filterMap fun a =>
    match a with
    | .finalized t => some t
    | _ => none

/-- Transcripts handed to `self.brain.evaluate` in a trace. -/
def evalTexts (tr : List SAction) : List PyStr :=
  tr.filterMap fun a =>
    match a with
    | .evalInvoked t => some t
    | _ => none

/-- `auto_ended` flags of the `stop()` executions in a trace. -/
def terminatedFlags (tr : List SAction) : List Bool :=
  tr.filterMap fun a =>
    match a with
    | .terminated b => some b
    | _ => none

/-- Number of `_generate_and_send_report` invocations in a trace. -/
def countReport (tr : List SAction) : Nat :=
  tr.countP fun a =>
    match a with
    | .reportGenerated => true
    | _ => false

/-!  ## Module import behaviour (`config.py`, `report_generator.py`,
`server.py` module scope) -/

/-- The attribute names defined by `class Config`
(`backend/modules/config.py:13-84`). -/
def configAttrs : List String :=
  ["GROQ_API_KEY", "GOOGLE_API_KEY", "DEEPGRAM_API_KEY", "OPENAI_API_KEY",
   "LLM_MODEL", "VISION_MODEL", "DEEPGRAM_MODEL",
   "TTS_PROVIDER", "EDGE_TTS_VOICE", "OPENAI_TTS_VOICE",
   "VISION_CHANGE_THRESHOLD", "VISION_MIN_INTERVAL",
   "MAX_SLIDES", "REMEDIATION_THRESHOLD",
   "AUDIO_SAMPLE_RATE", "AUDIO_CHANNELS",
   "SERVER_HOST", "SERVER_PORT", "validate", "get_status"]

/-- A Python exception escaping module initialisation. -/
inductive PyError
  | attributeError (name : String)
deriving DecidableEq

/-- Python attribute lookup `getattr(Config, name)` (success carries no
payload we need). -/
def configGetattr (name : String) : Except PyError Unit :=
  if name ∈ configAttrs then .ok () else .error (.attributeError name)

/-- `PDFReportGenerator.__init__` (`report_generator.py:59-63`):
`Path(reports_dir or Config.REPORTS_DIR)` — the class-attribute access is
evaluated only when `reports_dir` is falsy (absent or empty). -/
def PDFReportGenerator.init (reports_dir : Option String) : Except PyError Unit :=
  match reports_dir with
  | some d =>
    if d = "" then do
      let _ ← configGetattr "REPORTS_DIR"
      .ok ()
    else .ok ()
  | none => do
    let _ ← configGetattr "REPORTS_DIR"
    .ok ()

/-- Module-scope initialisation of `backend/server.py`: after the history
storage, line 86 runs `pdf_generator = PDFReportGenerator()` (default
argument), so importing the module propagates any error from that
constructor. -/
def serverModuleImport : Except PyError Unit := do
  let _ ← PDFReportGenerator.init none
  .ok ()

/-!  ## Claim C10 -/

/-- C10: constructing `PDFReportGenerator` with the default `reports_dir`
argument always raises `AttributeError`, because its initializer reads
`Config.REPORTS_DIR` and `Config` defines no `REPORTS_DIR` attribute;
since `server.py` instantiates `PDFReportGenerator()` at module scope,
importing the server module always fails. -/
theorem C10_missing_reports_dir :
    "REPORTS_DIR" ∉ configAttrs
    ∧ PDFReportGenerator.init none
        = Except.error (PyError.attributeError "REPORTS_DIR")
    ∧ serverModuleImport
        = Except.error (PyError.attributeError "REPORTS_DIR") := by
  exact ⟨by decide, rfl, rfl⟩

/-!  ## Claim C1 -/

/-- An evaluation result that reports the presenter asked a direct
question (used to show `generate_response` never reaches the check). -/
def directQuestionEval : Evaluation :=
  { presenter_asked_question := some true
    next_response := some ("Sure, please go to the next slide.".toList) }

/-- A session 3 seconds after the previous AI question
(`last_question_time = 100`, clock now `103`, inside the 8-second
pacing window). -/
def pacedState : SessionState :=
  { startedState 0 100 with pending_response := true }

/-- C1: the claim states that `generate_response` invokes the evaluation
collaborator first and consults pacing only after inspecting the result,
so a direct-question transcript inside the pacing window is answered.
The code checks pacing before calling `brain.evaluate`
(`server.py:312-316`), so such a transcript is silently dropped: at the
failing input below the handler returns with the state unchanged and an
empty trace — no `evalInvoked`, no `speak` — even though the evaluation
oracle would have reported a direct question.  The dead-code comment at
`server.py:330` ("Respond immediately without pacing delay") documents
the claimed behaviour, which the control flow forecloses. -/
theorem C1_direct_question_dropped_by_pacing :
    InterviewSession.generate_response 103 103 directQuestionEval
        ("can we go to the next slide".toList) pacedState
      = (pacedState, []) := by
  have hp : (103 : ℚ) - pacedState.last_question_time < min_question_interval
      ∧ 0 < pacedState.last_question_time := by
    constructor <;> norm_num [pacedState, startedState, min_question_interval]
  unfold InterviewSession.generate_response
  rw [if_pos hp]

/-!  ## Claim C4 -/

/-- `_detect_change` characterisation: true exactly when no prior frame is
stored or the normalized difference exceeds the threshold. -/
lemma detect_change_eq_true_iff (cur : DFrame) (s : VisionState) :
    VisionProcessor.detect_change cur s = true ↔
      (s.last_frame = none
        ∨ ∃ lf, s.last_frame = some lf
            ∧ Config.VISION_CHANGE_THRESHOLD < frameDiff cur lf) := by
  unfold VisionProcessor.detect_change
  cases h : s.last_frame with
  | none => simp
  | some lf => simp

/-- The difference metric vanishes on identical frames. -/
lemma frameDiff_self (f : DFrame) : frameDiff f f = 0 := by
  simp [frameDiff]

/-- C4: `process_frame` reports `shouldAnalyze = true` iff (no prior
analyzed frame exists, or the mean absolute per-channel difference of the
320x180-downsampled frames normalized by 255 exceeds the threshold) and
the minimum wall-clock interval has elapsed since the last analysis call;
in particular a first frame (given the wall clock is past the interval,
as `time.time()` always is against the zero-initialised
`_last_api_call`) is analyzed, an identical consecutive frame yields
`false`, and an above-threshold change inside the cooldown yields
`false`. -/
theorem C4_change_gate (s : VisionState) (now : ℚ) (f : DFrame) (o : ApiOutcome) :
    ((VisionProcessor.process_frame now f o s).1.1 = true ↔
      ((s.last_frame = none
          ∨ ∃ lf, s.last_frame = some lf
              ∧ Config.VISION_CHANGE_THRESHOLD < frameDiff f lf)
        ∧ Config.VISION_MIN_INTERVAL ≤ now - s.last_api_call))
    ∧ (s.last_frame = none → Config.VISION_MIN_INTERVAL ≤ now - s.last_api_call →
        (VisionProcessor.process_frame now f o s).1.1 = true)
    ∧ (∀ lf, s.last_frame = some lf →
        (VisionProcessor.process_frame now lf o s).1.1 = false)
    ∧ (∀ lf, s.last_frame = some lf →
        Config.VISION_CHANGE_THRESHOLD < frameDiff f lf →
        now - s.last_api_call < Config.VISION_MIN_INTERVAL →
        (VisionProcessor.process_frame now f o s).1.1 = false) := by
  refine ⟨?_, ?_, ?_, ?_⟩
  · unfold VisionProcessor.process_frame
    split_ifs with h1 h2
    · simp only [Bool.not_eq_true] at h1
      constructor
      · intro h; exact absurd h (by simp)
      · intro ⟨hc, _⟩
        have : VisionProcessor.detect_change f s = true :=
          (detect_change_eq_true_iff f s).mpr hc
        rw [this] at h1; exact absurd h1 (by simp)
    · constructor
      · intro h; exact absurd h (by simp)
      · intro ⟨_, hi⟩; exact absurd h2 (not_lt.mpr hi)
    · simp only [true_iff]
      refine ⟨?_, not_lt.mp h2⟩
      refine (detect_change_eq_true_iff f s).mp ?_
      cases h : VisionProcessor.detect_change f s with
      | false => exact absurd h h1
      | true => rfl
  · intro hn hi
    unfold VisionProcessor.process_frame
    rw [if_neg, if_neg (not_lt.mpr hi)]
    unfold VisionProcessor.detect_change
    rw [hn]
    simp
  · intro lf hlf
    unfold VisionProcessor.process_frame
    rw [if_pos]
    unfold VisionProcessor.detect_change
    rw [hlf]
    simp [frameDiff_self, Config.VISION_CHANGE_THRESHOLD]
  · intro lf hlf hd hi
    unfold VisionProcessor.process_frame
    split_ifs with h1
    · rfl
    · rfl

/-- C4 witness: a fresh processor analyzes a first frame submitted at
clock 5 (the interval having elapsed against the zero-initialised
timestamp). -/
theorem C4_change_gate_witness :
    (VisionProcessor.process_frame 5 (fun _ => 0) ApiOutcome.otherError
        VisionProcessor.init).1.1 = true :=
  (C4_change_gate VisionProcessor.init 5 (fun _ => 0) ApiOutcome.otherError).2.1
    rfl (by norm_num [Config.VISION_MIN_INTERVAL, VisionProcessor.init])

/-!  ## Claim C3 -/

/-- The previously analyzed frame (all channels 0). -/
def c3Frame0 : DFrame := fun _ => 0

/-- A maximally different new frame (all channels 255). -/
def c3Frame1 : DFrame := fun _ => 255

/-- Processor state after a first successful analysis at clock 0. -/
def c3State : VisionState :=
  { last_frame := some c3Frame0
    last_analysis := "cached description".toList
    last_api_call := 0 }

lemma c3_frameDiff : frameDiff c3Frame1 c3Frame0 = 1 := by
  simp only [frameDiff, c3Frame0, c3Frame1, sub_zero, Finset.sum_const,
    Finset.card_univ, Fintype.card_fin, nsmul_eq_mul]
  norm_num [numPixelChannels]

lemma c3_detect : VisionProcessor.detect_change c3Frame1 c3State = true := by
  unfold VisionProcessor.detect_change c3State
  simp only [c3_frameDiff]
  norm_num [Config.VISION_CHANGE_THRESHOLD]

/-- C3 counterexample: at clock 10, with the cached state `c3State` and a
frame whose normalized difference is 1 (above threshold), a rate-limited
description call returns `(True, cached description)` — but the frame IS
recorded as seen: `_last_api_call` moves from 0 to 10 and `_last_frame`
becomes the new frame, contradicting the claim that a rate-limited call
leaves the stored last-analyzed frame, description and timestamp
unchanged. -/
theorem C3_counterexample :
    (VisionProcessor.process_frame 10 c3Frame1 ApiOutcome.rateLimited c3State).1
      = (true, some ("cached description".toList))
    ∧ (VisionProcessor.process_frame 10 c3Frame1 ApiOutcome.rateLimited c3State).2.last_api_call
      = 10
    ∧ ¬ ((VisionProcessor.process_frame 10 c3Frame1 ApiOutcome.rateLimited c3State).2.last_api_call
      = c3State.last_api_call)
    ∧ ¬ ((VisionProcessor.process_frame 10 c3Frame1 ApiOutcome.rateLimited c3State).2.last_frame
      = c3State.last_frame) := by
  have hrun : VisionProcessor.process_frame 10 c3Frame1 ApiOutcome.rateLimited c3State
      = ((true, some ("cached description".toList)),
         { last_frame := some c3Frame1
           last_analysis := "cached description".toList
           last_api_call := 10 }) := by
    unfold VisionProcessor.process_frame
    rw [c3_detect]
    rw [if_neg (by simp)]
    rw [if_neg (by norm_num [c3State, Config.VISION_MIN_INTERVAL])]
    rfl
  refine ⟨by rw [hrun], by rw [hrun], by rw [hrun]; norm_num [c3State], ?_⟩
  rw [hrun]
  intro h
  simp only [c3State, Option.some.injEq] at h
  have h0 := congrFun h ⟨0, by norm_num [numPixelChannels]⟩
  simp [c3Frame0, c3Frame1] at h0

/-- C3 (amended): for every accepted frame (change detected and cooldown
elapsed) whose description call is rate limited, `process_frame` returns
the previously cached description instead of propagating a failure, but
the frame is nonetheless recorded as seen: the stored last-analyzed frame
and last-call timestamp are updated to the new frame and call time, and
the stored description is re-stored unchanged. -/
theorem C3_rate_limited_returns_cached (s : VisionState) (now : ℚ) (f : DFrame)
    (h1 : VisionProcessor.detect_change f s = true)
    (h2 : Config.VISION_MIN_INTERVAL ≤ now - s.last_api_call) :
    VisionProcessor.process_frame now f ApiOutcome.rateLimited s
      = ((true, some s.last_analysis),
         { last_frame := some f
           last_analysis := s.last_analysis
           last_api_call := now }) := by
  unfold VisionProcessor.process_frame
  rw [h1]
  rw [if_neg (by simp)]
  rw [if_neg (not_lt.mpr h2)]
  rfl

/-- C3 witness: the amended theorem applied at the concrete rate-limited
call of `C3_counterexample`. -/
theorem C3_rate_limited_returns_cached_witness :
    VisionProcessor.process_frame 10 c3Frame1 ApiOutcome.rateLimited c3State
      = ((true, some ("cached description".toList)),
         { last_frame := some c3Frame1
           last_analysis := "cached description".toList
           last_api_call := 10 }) :=
  C3_rate_limited_returns_cached c3State 10 c3Frame1 c3_detect
    (by norm_num [c3State, Config.VISION_MIN_INTERVAL])

/-!  ## Claim C2 -/

@[simp] lemma generate_response_is_stopped (now tSpeak : ℚ) (ev : Evaluation)
    (tc : PyStr) (s : SessionState) :
    (InterviewSession.generate_response now tSpeak ev tc s).1.is_stopped
      = s.is_stopped := by
  unfold InterviewSession.generate_response
  simp only []
  split_ifs <;> rfl

@[simp] lemma generate_response_awaiting (now tSpeak : ℚ) (ev : Evaluation)
    (tc : PyStr) (s : SessionState) :
    (InterviewSession.generate_response now tSpeak ev tc s).1.awaiting_screen_reshare
      = s.awaiting_screen_reshare := by
  unfold InterviewSession.generate_response
  simp only []
  split_ifs <;> rfl

@[simp] lemma generate_response_lost_time (now tSpeak : ℚ) (ev : Evaluation)
    (tc : PyStr) (s : SessionState) :
    (InterviewSession.generate_response now tSpeak ev tc s).1.screen_share_lost_time
      = s.screen_share_lost_time := by
  unfold InterviewSession.generate_response
  simp only []
  split_ifs <;> rfl

@[simp] lemma generate_response_is_active (now tSpeak : ℚ) (ev : Evaluation)
    (tc : PyStr) (s : SessionState) :
    (InterviewSession.generate_response now tSpeak ev tc s).1.is_active
      = s.is_active := by
  unfold InterviewSession.generate_response
  simp only []
  split_ifs <;> rfl

@[simp] lemma finalize_transcript_is_stopped (now tSpeak : ℚ) (ev : Evaluation)
    (s : SessionState) :
    (InterviewSession.finalize_transcript now tSpeak ev s).1.is_stopped
      = s.is_stopped := by
  unfold InterviewSession.finalize_transcript
  split_ifs <;> simp

@[simp] lemma finalize_transcript_awaiting (now tSpeak : ℚ) (ev : Evaluation)
    (s : SessionState) :
    (InterviewSession.finalize_transcript now tSpeak ev s).1.awaiting_screen_reshare
      = s.awaiting_screen_reshare := by
  unfold InterviewSession.finalize_transcript
  split_ifs <;> simp

@[simp] lemma finalize_transcript_lost_time (now tSpeak : ℚ) (ev : Evaluation)
    (s : SessionState) :
    (InterviewSession.finalize_transcript now tSpeak ev s).1.screen_share_lost_time
      = s.screen_share_lost_time := by
  unfold InterviewSession.finalize_transcript
  split_ifs <;> simp

@[simp] lemma finalize_transcript_is_active (now tSpeak : ℚ) (ev : Evaluation)
    (s : SessionState) :
    (InterviewSession.finalize_transcript now tSpeak ev s).1.is_active
      = s.is_active := by
  unfold InterviewSession.finalize_transcript
  split_ifs <;> simp

@[simp] lemma process_accumulated_audio_is_stopped (now tSpeak : ℚ)
    (tr : Option PyStr) (ev : Evaluation) (s : SessionState) :
    (InterviewSession.process_accumulated_audio now tSpeak tr ev s).1.is_stopped
      = s.is_stopped := by
  cases tr <;> (unfold InterviewSession.process_accumulated_audio; simp only []; split_ifs <;> simp)

@[simp] lemma process_accumulated_audio_awaiting (now tSpeak : ℚ)
    (tr : Option PyStr) (ev : Evaluation) (s : SessionState) :
    (InterviewSession.process_accumulated_audio now tSpeak tr ev s).1.awaiting_screen_reshare
      = s.awaiting_screen_reshare := by
  cases tr <;> (unfold InterviewSession.process_accumulated_audio; simp only []; split_ifs <;> simp)

@[simp] lemma process_accumulated_audio_lost_time (now tSpeak : ℚ)
    (tr : Option PyStr) (ev : Evaluation) (s : SessionState) :
    (InterviewSession.process_accumulated_audio now tSpeak tr ev s).1.screen_share_lost_time
      = s.screen_share_lost_time := by
  cases tr <;> (unfold InterviewSession.process_accumulated_audio; simp only []; split_ifs <;> simp)

@[simp] lemma process_accumulated_audio_is_active (now tSpeak : ℚ)
    (tr : Option PyStr) (ev : Evaluation) (s : SessionState) :
    (InterviewSession.process_accumulated_audio now tSpeak tr ev s).1.is_active
      = s.is_active := by
  cases tr <;> (unfold InterviewSession.process_accumulated_audio; simp only []; split_ifs <;> simp)

@[simp] lemma handle_audio_chunk_is_stopped (now : ℚ) (chunk : List Nat)
    (encoding : PyStr) (sampleRate : Nat) (tr : Option PyStr) (ev : Evaluation)
    (tSpeak : ℚ) (s : SessionState) :
    (InterviewSession.handle_audio_chunk now chunk encoding sampleRate tr ev tSpeak s).1.is_stopped
      = s.is_stopped := by
  unfold InterviewSession.handle_audio_chunk
  simp only []
  split_ifs <;> simp

@[simp] lemma handle_audio_chunk_awaiting (now : ℚ) (chunk : List Nat)
    (encoding : PyStr) (sampleRate : Nat) (tr : Option PyStr) (ev : Evaluation)
    (tSpeak : ℚ) (s : SessionState) :
    (InterviewSession.handle_audio_chunk now chunk encoding sampleRate tr ev tSpeak s).1.awaiting_screen_reshare
      = s.awaiting_screen_reshare := by
  unfold InterviewSession.handle_audio_chunk
  simp only []
  split_ifs <;> simp

@[simp] lemma handle_audio_chunk_lost_time (now : ℚ) (chunk : List Nat)
    (encoding : PyStr) (sampleRate : Nat) (tr : Option PyStr) (ev : Evaluation)
    (tSpeak : ℚ) (s : SessionState) :
    (InterviewSession.handle_audio_chunk now chunk encoding sampleRate tr ev tSpeak s).1.screen_share_lost_time
      = s.screen_share_lost_time := by
  unfold InterviewSession.handle_audio_chunk
  simp only []
  split_ifs <;> simp

@[simp] lemma handle_audio_chunk_is_active (now : ℚ) (chunk : List Nat)
    (encoding : PyStr) (sampleRate : Nat) (tr : Option PyStr) (ev : Evaluation)
    (tSpeak : ℚ) (s : SessionState) :
    (InterviewSession.handle_audio_chunk now chunk encoding sampleRate tr ev tSpeak s).1.is_active
      = s.is_active := by
  unfold InterviewSession.handle_audio_chunk
  simp only []
  split_ifs <;> simp

/-- `stop` past its idempotence guard: flags set, loss timestamp kept. -/
lemma stop_not_guarded (a g : Bool) (now tSpeak : ℚ) (tr : Option PyStr)
    (ev : Evaluation) (s : SessionState)
    (hA : s.is_active = true) (hS : s.is_stopped = false) :
    (InterviewSession.stop a g now tSpeak tr ev s).1.is_stopped = true
    ∧ (InterviewSession.stop a g now tSpeak tr ev s).1.awaiting_screen_reshare = false
    ∧ (InterviewSession.stop a g now tSpeak tr ev s).1.is_active = false
    ∧ (InterviewSession.stop a g now tSpeak tr ev s).1.screen_share_lost_time
        = s.screen_share_lost_time := by
  unfold InterviewSession.stop
  rw [if_neg (by simp [hA, hS])]
  refine ⟨?_, ?_, ?_, ?_⟩ <;> (simp only []; split_ifs <;> simp)

/-- `stop` short-circuited by its idempotence guard. -/
lemma stop_guarded (a g : Bool) (now tSpeak : ℚ) (tr : Option PyStr)
    (ev : Evaluation) (s : SessionState)
    (hg : s.is_active = false ∨ s.is_stopped = true) :
    InterviewSession.stop a g now tSpeak tr ev s = (s, []) := by
  unfold InterviewSession.stop
  rw [if_pos hg]

/-- The interruption-state invariant as amended: before the session is
stopped, the recovery timestamp is present exactly when awaiting
recovery; once stopped, the session is inactive and no longer awaiting
(but the timestamp may survive). -/
def interruptionInv (s : SessionState) : Prop :=
  (s.is_stopped = false →
    ((s.screen_share_lost_time ≠ none) ↔ s.awaiting_screen_reshare = true))
  ∧ (s.is_stopped = true →
    s.awaiting_screen_reshare = false ∧ s.is_active = false)

@[simp] lemma handle_video_frame_is_stopped (hc : Bool) (an : Option PyStr)
    (s : SessionState) :
    (InterviewSession.handle_video_frame hc an s).1.is_stopped = s.is_stopped := by
  cases an <;> (unfold InterviewSession.handle_video_frame; simp only []; split_ifs <;> rfl)

@[simp] lemma handle_video_frame_awaiting (hc : Bool) (an : Option PyStr)
    (s : SessionState) :
    (InterviewSession.handle_video_frame hc an s).1.awaiting_screen_reshare
      = s.awaiting_screen_reshare := by
  cases an <;> (unfold InterviewSession.handle_video_frame; simp only []; split_ifs <;> rfl)

@[simp] lemma handle_video_frame_lost_time (hc : Bool) (an : Option PyStr)
    (s : SessionState) :
    (InterviewSession.handle_video_frame hc an s).1.screen_share_lost_time
      = s.screen_share_lost_time := by
  cases an <;> (unfold InterviewSession.handle_video_frame; simp only []; split_ifs <;> rfl)

@[simp] lemma handle_video_frame_is_active (hc : Bool) (an : Option PyStr)
    (s : SessionState) :
    (InterviewSession.handle_video_frame hc an s).1.is_active = s.is_active := by
  cases an <;> (unfold InterviewSession.handle_video_frame; simp only []; split_ifs <;> rfl)

/-- A video frame received while awaiting recovery performs the implicit
restoration: flags cleared, loss timestamp erased, activity and stop
flags untouched. -/
lemma video_step_awaiting_true (hc : Bool) (an : Option PyStr) (s : SessionState)
    (hw : s.awaiting_screen_reshare = true) :
    (sessionStep s (SEvent.video hc an)).1.is_stopped = s.is_stopped
    ∧ (sessionStep s (SEvent.video hc an)).1.is_active = s.is_active
    ∧ (sessionStep s (SEvent.video hc an)).1.awaiting_screen_reshare = false
    ∧ (sessionStep s (SEvent.video hc an)).1.screen_share_lost_time = none := by
  simp only [sessionStep]
  rw [if_pos hw]
  unfold InterviewSession.handle_screen_share_restored
  rw [if_neg (by simp [hw])]
  refine ⟨?_, ?_, ?_, ?_⟩ <;> simp

/-- A video frame received while not awaiting recovery leaves the
interruption fields untouched. -/
lemma video_step_awaiting_false (hc : Bool) (an : Option PyStr) (s : SessionState)
    (hw : s.awaiting_screen_reshare = false) :
    (sessionStep s (SEvent.video hc an)).1.is_stopped = s.is_stopped
    ∧ (sessionStep s (SEvent.video hc an)).1.is_active = s.is_active
    ∧ (sessionStep s (SEvent.video hc an)).1.awaiting_screen_reshare
        = s.awaiting_screen_reshare
    ∧ (sessionStep s (SEvent.video hc an)).1.screen_share_lost_time
        = s.screen_share_lost_time := by
  simp only [sessionStep]
  rw [if_neg (by simp [hw])]
  refine ⟨?_, ?_, ?_, ?_⟩ <;> simp

/-- `handle_screen_share_lost` past its guard: loss recorded. -/
lemma handle_screen_share_lost_not_guarded (t : ℚ) (s : SessionState)
    (hA : s.is_active = true) (hw : s.awaiting_screen_reshare = false) :
    (InterviewSession.handle_screen_share_lost t s).1
      = { s with screen_share_active := false
                 screen_share_lost_time := some t
                 awaiting_screen_reshare := true } := by
  unfold InterviewSession.handle_screen_share_lost
  rw [if_neg (by simp [hA, hw])]

/-- `handle_screen_share_restored` past its guard: recovery recorded. -/
lemma handle_screen_share_restored_not_guarded (s : SessionState)
    (hw : s.awaiting_screen_reshare = true) :
    (InterviewSession.handle_screen_share_restored s).1
      = { s with screen_share_active := true
                 awaiting_screen_reshare := false
                 screen_share_lost_time := none } := by
  unfold InterviewSession.handle_screen_share_restored
  rw [if_neg (by simp [hw])]

lemma interruptionInv_step (s : SessionState) (e : SEvent)
    (h : interruptionInv s) : interruptionInv (sessionStep s e).1 := by
  obtain ⟨h1, h2⟩ := h
  cases e with
  | audio t chunk encoding sampleRate tr ev tSpeak =>
    refine ⟨fun hs => ?_, fun hs => ?_⟩
    · simp only [sessionStep, handle_audio_chunk_is_stopped] at hs
      simp only [sessionStep, handle_audio_chunk_awaiting,
        handle_audio_chunk_lost_time]
      exact h1 hs
    · simp only [sessionStep, handle_audio_chunk_is_stopped] at hs
      simp only [sessionStep, handle_audio_chunk_awaiting,
        handle_audio_chunk_is_active]
      exact h2 hs
  | video hasChange analysis =>
    by_cases hw : s.awaiting_screen_reshare = true
    · obtain ⟨e1, e2, e3, e4⟩ := video_step_awaiting_true hasChange analysis s hw
      refine ⟨fun _ => ?_, fun hs => ?_⟩
      · rw [e3, e4]; simp
      · rw [e1] at hs
        exact ⟨e3, by rw [e2]; exact (h2 hs).2⟩
    · have hw2 : s.awaiting_screen_reshare = false := by
        revert hw; cases s.awaiting_screen_reshare <;> simp
      obtain ⟨e1, e2, e3, e4⟩ := video_step_awaiting_false hasChange analysis s hw2
      refine ⟨fun hs => ?_, fun hs => ?_⟩
      · rw [e3, e4]
        exact h1 (by rw [e1] at hs; exact hs)
      · rw [e1] at hs
        exact ⟨by rw [e3]; exact (h2 hs).1, by rw [e2]; exact (h2 hs).2⟩
  | shareLost t =>
    by_cases hg : s.is_active = false ∨ s.awaiting_screen_reshare = true
    · have : sessionStep s (SEvent.shareLost t) = (s, []) := by
        simp only [sessionStep]
        unfold InterviewSession.handle_screen_share_lost
        rw [if_pos hg]
      rw [this]
      exact ⟨h1, h2⟩
    · push_neg at hg
      have hA : s.is_active = true := by
        have := hg.1; revert this; cases s.is_active <;> simp
      have hw2 : s.awaiting_screen_reshare = false := by
        have := hg.2; revert this; cases s.awaiting_screen_reshare <;> simp
      have hrec := handle_screen_share_lost_not_guarded t s hA hw2
      refine ⟨fun _ => ?_, fun hs => ?_⟩
      · simp only [sessionStep, hrec]
        simp
      · exfalso
        simp only [sessionStep, hrec] at hs
        exact absurd ((h2 hs).2) (by simp [hA])
  | shareRestored =>
    by_cases hw : s.awaiting_screen_reshare = true
    · have hrec := handle_screen_share_restored_not_guarded s hw
      refine ⟨fun _ => ?_, fun hs => ?_⟩
      · simp only [sessionStep, hrec]
        simp
      · exfalso
        simp only [sessionStep, hrec] at hs
        exact absurd ((h2 hs).1) (by simp [hw])
    · have : sessionStep s SEvent.shareRestored = (s, []) := by
        simp only [sessionStep]
        unfold InterviewSession.handle_screen_share_restored
        rw [if_pos (by revert hw; cases s.awaiting_screen_reshare <;> simp)]
      rw [this]
      exact ⟨h1, h2⟩
  | timerFire t tr ev tSpeak =>
    simp only [sessionStep]
    unfold InterviewSession.screen_share_timeout_checker
    split_ifs with hg
    · obtain ⟨hw, hA⟩ := hg
      have hS : s.is_stopped = false := by
        by_contra hx
        have hx2 : s.is_stopped = true := by revert hx; cases s.is_stopped <;> simp
        have := (h2 hx2).1
        rw [this] at hw
        exact Bool.false_ne_true hw
      have hst := stop_not_guarded true false t tSpeak tr ev s hA hS
      simp only []
      exact ⟨fun hx => absurd hst.1 (by rw [hx]; simp), fun _ => ⟨hst.2.1, hst.2.2.1⟩⟩
    · exact ⟨h1, h2⟩
  | stopCmd t tr ev tSpeak =>
    by_cases hg : s.is_active = false ∨ s.is_stopped = true
    · simp only [sessionStep]
      rw [stop_guarded _ _ _ _ _ _ _ hg]
      exact ⟨h1, h2⟩
    · push_neg at hg
      have hA : s.is_active = true := by
        have := hg.1; revert this; cases s.is_active <;> simp
      have hS : s.is_stopped = false := by
        have := hg.2; revert this; cases s.is_stopped <;> simp
      have hst := stop_not_guarded false false t tSpeak tr ev s hA hS
      simp only [sessionStep]
      exact ⟨fun hx => absurd hst.1 (by rw [hx]; simp), fun _ => ⟨hst.2.1, hst.2.2.1⟩⟩
  | reportCmd =>
    simp only [sessionStep]
    unfold InterviewSession.generate_report_on_demand
    split_ifs <;> exact ⟨h1, h2⟩
  | userSpeaking =>
    simp only [sessionStep]
    exact ⟨h1, h2⟩

lemma interruptionInv_run (s : SessionState) (es : List SEvent)
    (h : interruptionInv s) : interruptionInv (runSessionAux s es).1 := by
  induction es generalizing s with
  | nil => exact h
  | cons e es ih =>
    unfold runSessionAux
    exact ih _ (interruptionInv_step s e h)

/-- C2 counterexample: start a session, lose the screen share at clock
100, then receive a client `stop` at clock 101.  `stop()` clears
`awaiting_screen_reshare` but not `screen_share_lost_time`
(`server.py:477-479`), so afterwards the stored loss timestamp is
non-None while the session is not awaiting recovery — the claimed
equivalence fails after the `stop` event handler. -/
theorem C2_counterexample :
    ¬ (((runSession 0 0 [SEvent.shareLost 100,
          SEvent.stopCmd 101 none {} 101]).1.screen_share_lost_time ≠ none) ↔
        (runSession 0 0 [SEvent.shareLost 100,
          SEvent.stopCmd 101 none {} 101]).1.awaiting_screen_reshare = true) := by
  decide

/-- C2 (amended): in every state reachable from a started session, while
the session is not stopped the stored screen-share-lost timestamp is
non-None iff the session is awaiting re-share; `stop()` clears only the
awaiting flag (`server.py:479`), leaving the timestamp behind, so after
termination the equivalence can fail — what remains is that a stopped
session is inactive and not awaiting recovery. -/
theorem C2_interruption_invariant (tInit tStart : ℚ) (es : List SEvent) :
    ((runSession tInit tStart es).1.is_stopped = false →
      (((runSession tInit tStart es).1.screen_share_lost_time ≠ none) ↔
        (runSession tInit tStart es).1.awaiting_screen_reshare = true))
    ∧ ((runSession tInit tStart es).1.is_stopped = true →
      (runSession tInit tStart es).1.awaiting_screen_reshare = false
      ∧ (runSession tInit tStart es).1.is_active = false) :=
  interruptionInv_run (startedState tInit tStart) es
    ⟨fun _ => by simp [startedState], fun hx => by simp [startedState] at hx⟩

/-- C2 witness: the amended invariant evaluated on a concrete running
(not yet stopped) session that has just lost its screen share. -/
theorem C2_interruption_invariant_witness :
    ((runSession 0 0 [SEvent.shareLost 100]).1.screen_share_lost_time ≠ none) ↔
      (runSession 0 0 [SEvent.shareLost 100]).1.awaiting_screen_reshare = true :=
  (C2_interruption_invariant 0 0 [SEvent.shareLost 100]).1 (by decide)

/-!  ## Claim C8 -/

/-- History bookkeeping invariant: the slide counter equals the history
length and the recorded slide numbers are exactly `1, 2, ..., length`. -/
def historyOK (s : SessionState) : Prop :=
  s.slide_count = s.history.length
  ∧ s.history.map Turn.slide = List.range' 1 s.history.length

lemma range'_one_concat (n : ℕ) :
    List.range' 1 n ++ [n + 1] = List.range' 1 (n + 1) := by
  rw [List.range'_concat]
  simp [Nat.add_comm]

lemma generate_response_history (now tSpeak : ℚ) (ev : Evaluation) (tc : PyStr)
    (s : SessionState) (h : historyOK s) :
    historyOK (InterviewSession.generate_response now tSpeak ev tc s).1
    ∧ s.history <+: (InterviewSession.generate_response now tSpeak ev tc s).1.history := by
  obtain ⟨hc, hm⟩ := h
  unfold InterviewSession.generate_response
  simp only []
  split_ifs
  · exact ⟨⟨hc, hm⟩, List.prefix_refl _⟩
  · exact ⟨⟨hc, hm⟩, List.prefix_refl _⟩
  · refine ⟨⟨?_, ?_⟩, List.prefix_append _ _⟩
    · simp [hc]
    · simp only [List.map_append, List.map_cons, List.map_nil, hm, hc,
        List.length_append, List.length_cons, List.length_nil]
      exact range'_one_concat _
  · refine ⟨⟨?_, ?_⟩, List.prefix_append _ _⟩
    · simp [hc]
    · simp only [List.map_append, List.map_cons, List.map_nil, hm, hc,
        List.length_append, List.length_cons, List.length_nil]
      exact range'_one_concat _

lemma finalize_transcript_history (now tSpeak : ℚ) (ev : Evaluation)
    (s : SessionState) (h : historyOK s) :
    historyOK (InterviewSession.finalize_transcript now tSpeak ev s).1
    ∧ s.history <+: (InterviewSession.finalize_transcript now tSpeak ev s).1.history := by
  unfold InterviewSession.finalize_transcript
  simp only []
  split_ifs
  · exact ⟨h, List.prefix_refl _⟩
  · exact generate_response_history now tSpeak ev _ _ h

lemma process_accumulated_audio_history (now tSpeak : ℚ) (tr : Option PyStr)
    (ev : Evaluation) (s : SessionState) (h : historyOK s) :
    historyOK (InterviewSession.process_accumulated_audio now tSpeak tr ev s).1
    ∧ s.history <+: (InterviewSession.process_accumulated_audio now tSpeak tr ev s).1.history := by
  cases tr with
  | none =>
    unfold InterviewSession.process_accumulated_audio
    simp only []
    split_ifs <;> exact ⟨h, List.prefix_refl _⟩
  | some t =>
    unfold InterviewSession.process_accumulated_audio
    simp only []
    split_ifs
    · exact ⟨h, List.prefix_refl _⟩
    · exact ⟨h, List.prefix_refl _⟩
    · exact ⟨h, List.prefix_refl _⟩
    · exact finalize_transcript_history now tSpeak ev _ h
    · exact ⟨h, List.prefix_refl _⟩

lemma handle_audio_chunk_history (now : ℚ) (chunk : List Nat) (encoding : PyStr)
    (sampleRate : Nat) (tr : Option PyStr) (ev : Evaluation) (tSpeak : ℚ)
    (s : SessionState) (h : historyOK s) :
    historyOK (InterviewSession.handle_audio_chunk now chunk encoding sampleRate tr ev tSpeak s).1
    ∧ s.history <+: (InterviewSession.handle_audio_chunk now chunk encoding sampleRate tr ev tSpeak s).1.history := by
  unfold InterviewSession.handle_audio_chunk
  simp only []
  split_ifs
  · exact ⟨h, List.prefix_refl _⟩
  · exact process_accumulated_audio_history now tSpeak tr ev _ h
  · exact ⟨h, List.prefix_refl _⟩

lemma stop_history (a g : Bool) (now tSpeak : ℚ) (tr : Option PyStr)
    (ev : Evaluation) (s : SessionState) (h : historyOK s) :
    historyOK (InterviewSession.stop a g now tSpeak tr ev s).1
    ∧ s.history <+: (InterviewSession.stop a g now tSpeak tr ev s).1.history := by
  by_cases hg : s.is_active = false ∨ s.is_stopped = true
  · rw [stop_guarded a g now tSpeak tr ev s hg]
    exact ⟨h, List.prefix_refl _⟩
  · unfold InterviewSession.stop
    rw [if_neg hg]
    simp only []
    split_ifs with h2 h3 h4
    · have p1 := process_accumulated_audio_history now tSpeak tr ev
        { s with is_active := false, is_stopped := true
                 awaiting_screen_reshare := false } h
      have p2 := finalize_transcript_history now tSpeak ev _ p1.1
      exact ⟨p2.1, p1.2.trans p2.2⟩
    · have p1 := process_accumulated_audio_history now tSpeak tr ev
        { s with is_active := false, is_stopped := true
                 awaiting_screen_reshare := false } h
      have p2 := finalize_transcript_history now tSpeak ev _ p1.1
      exact ⟨p2.1, p1.2.trans p2.2⟩
    · have p1 := process_accumulated_audio_history now tSpeak tr ev
        { s with is_active := false, is_stopped := true
                 awaiting_screen_reshare := false } h
      exact ⟨p1.1, p1.2⟩
    · have p1 := process_accumulated_audio_history now tSpeak tr ev
        { s with is_active := false, is_stopped := true
                 awaiting_screen_reshare := false } h
      exact ⟨p1.1, p1.2⟩
    · have p2 := finalize_transcript_history now tSpeak ev
        { s with is_active := false, is_stopped := true
                 awaiting_screen_reshare := false } h
      exact ⟨p2.1, p2.2⟩
    · have p2 := finalize_transcript_history now tSpeak ev
        { s with is_active := false, is_stopped := true
                 awaiting_screen_reshare := false } h
      exact ⟨p2.1, p2.2⟩
    · exact ⟨h, List.prefix_refl _⟩
    · exact ⟨h, List.prefix_refl _⟩

lemma sessionStep_history (s : SessionState) (e : SEvent) (h : historyOK s) :
    historyOK (sessionStep s e).1
    ∧ s.history <+: (sessionStep s e).1.history := by
  cases e with
  | audio t chunk encoding sampleRate tr ev tSpeak =>
    exact handle_audio_chunk_history t chunk encoding sampleRate tr ev tSpeak s h
  | video hasChange analysis =>
    simp only [sessionStep]
    split_ifs with hw
    · have hrec := handle_screen_share_restored_not_guarded s hw
      cases analysis with
      | none =>
        unfold InterviewSession.handle_video_frame
        simp only [hrec]
        split_ifs <;> exact ⟨h, List.prefix_refl _⟩
      | some a =>
        unfold InterviewSession.handle_video_frame
        simp only [hrec]
        split_ifs <;> exact ⟨h, List.prefix_refl _⟩
    · cases analysis with
      | none =>
        unfold InterviewSession.handle_video_frame
        simp only []
        split_ifs <;> exact ⟨h, List.prefix_refl _⟩
      | some a =>
        unfold InterviewSession.handle_video_frame
        simp only []
        split_ifs <;> exact ⟨h, List.prefix_refl _⟩
  | shareLost t =>
    simp only [sessionStep]
    unfold InterviewSession.handle_screen_share_lost
    split_ifs <;> exact ⟨h, List.prefix_refl _⟩
  | shareRestored =>
    simp only [sessionStep]
    unfold InterviewSession.handle_screen_share_restored
    split_ifs <;> exact ⟨h, List.prefix_refl _⟩
  | timerFire t tr ev tSpeak =>
    simp only [sessionStep]
    unfold InterviewSession.screen_share_timeout_checker
    split_ifs with hg
    · simp only []
      exact stop_history true false t tSpeak tr ev s h
    · exact ⟨h, List.prefix_refl _⟩
  | stopCmd t tr ev tSpeak =>
    simp only [sessionStep]
    exact stop_history false false t tSpeak tr ev s h
  | reportCmd =>
    simp only [sessionStep]
    unfold InterviewSession.generate_report_on_demand
    split_ifs <;> exact ⟨h, List.prefix_refl _⟩
  | userSpeaking =>
    simp only [sessionStep]
    exact ⟨h, List.prefix_refl _⟩

lemma historyOK_run (s : SessionState) (es : List SEvent) (h : historyOK s) :
    historyOK (runSessionAux s es).1
    ∧ s.history <+: (runSessionAux s es).1.history := by
  induction es generalizing s with
  | nil => exact ⟨h, List.prefix_refl _⟩
  | cons e es ih =>
    unfold runSessionAux
    have hstep := sessionStep_history s e h
    have hrest := ih (sessionStep s e).1 hstep.1
    exact ⟨hrest.1, hstep.2.trans hrest.2⟩

/-!  ## Evaluation lemmas for concrete runs -/

/-- `generate_response` on an un-paced turn that is answered: evaluator
invoked, turn appended, response spoken. -/
lemma generate_response_answered (now tSpeak : ℚ) (ev : Evaluation) (tc : PyStr)
    (s : SessionState)
    (hp : ¬ (now - s.last_question_time < min_question_interval
            ∧ 0 < s.last_question_time))
    (hq : ¬ (¬ (ev.presenter_asked_question.getD false = true)
            ∧ ev.response_type = some ("proceed".toList)
            ∧ s.pending_response = true))
    (hr : ev.next_response.getD (ev.next_question.getD []) ≠ []
            ∧ pyStrip (ev.next_response.getD (ev.next_question.getD [])) ≠ []) :
    InterviewSession.generate_response now tSpeak ev tc s
      = ({ s with
            slide_count := s.slide_count + 1
            history := s.history ++
              [{ slide := s.slide_count + 1
                 transcript := tc
                 score := ev.score.getD 5
                 technical_depth := ev.technical_depth.getD (ev.score.getD 5)
                 clarity := ev.clarity.getD (ev.score.getD 5)
                 visual_quality := ev.visual_quality.getD 5
                 is_final_for_topic := ev.is_final_for_topic.getD true
                 conflict := ev.conflict_detected.getD false
                 conflict_description := ev.conflict_description.getD []
                 feedback := ev.feedback.getD []
                 question := ev.next_response.getD (ev.next_question.getD [])
                 topic := ev.topic.getD []
                 response_type := ev.response_type.getD []
                 screen_context := s.screen_context.take 300
                 timestamp := now }]
            last_question_time := tSpeak
            pending_response := true },
         [SAction.evalInvoked tc,
          SAction.speak (ev.next_response.getD (ev.next_question.getD []))]) := by
  unfold InterviewSession.generate_response
  rw [if_neg hp]
  simp only []
  rw [if_neg hq, if_pos hr]
  simp

/-- `finalize_transcript` on a non-blank accumulator. -/
lemma finalize_transcript_nonempty (now tSpeak : ℚ) (ev : Evaluation)
    (s : SessionState) (h : pyStrip s.accumulated_transcript ≠ []) :
    InterviewSession.finalize_transcript now tSpeak ev s
      = ((InterviewSession.generate_response now tSpeak ev
            (pyStrip s.accumulated_transcript)
            { s with accumulated_transcript := [] }).1,
         SAction.finalized (pyStrip s.accumulated_transcript) ::
           (InterviewSession.generate_response now tSpeak ev
             (pyStrip s.accumulated_transcript)
             { s with accumulated_transcript := [] }).2) := by
  unfold InterviewSession.finalize_transcript
  rw [if_neg h]

/-- `process_accumulated_audio` on a large-enough buffer whose
transcription succeeds with a truthy result pushing the word count to the
threshold: the buffer is drained, the collaborator called once, the text
joined and finalized. -/
lemma process_accumulated_audio_transcribed (now tSpeak : ℚ) (t : PyStr)
    (ev : Evaluation) (s : SessionState)
    (hne : s.audio_chunks ≠ [])
    (hlen : ¬ (s.audio_chunks.flatten.length < min_audio_bytes))
    (ht : t ≠ [])
    (hwc : word_threshold ≤ wordCount (s.accumulated_transcript ++ (' ' :: t))) :
    InterviewSession.process_accumulated_audio now tSpeak (some t) ev s
      = ((InterviewSession.finalize_transcript now tSpeak ev
            { s with audio_chunks := []
                     last_transcript_time := now
                     accumulated_transcript :=
                       s.accumulated_transcript ++ (' ' :: t) }).1,
         SAction.transcribe s.audio_chunks.flatten now ::
           (InterviewSession.finalize_transcript now tSpeak ev
             { s with audio_chunks := []
                      last_transcript_time := now
                      accumulated_transcript :=
                        s.accumulated_transcript ++ (' ' :: t) }).2) := by
  unfold InterviewSession.process_accumulated_audio
  rw [if_neg hne]
  simp only []
  rw [if_neg hlen, if_neg ht, if_pos hwc, List.singleton_append]

/-- `handle_audio_chunk` when active and past the flush interval. -/
lemma handle_audio_chunk_flush (now : ℚ) (chunk : List Nat) (encoding : PyStr)
    (sampleRate : Nat) (tr : Option PyStr) (ev : Evaluation) (tSpeak : ℚ)
    (s : SessionState)
    (hA : s.is_active = true)
    (hF : flush_interval ≤ now - s.last_transcript_time) :
    InterviewSession.handle_audio_chunk now chunk encoding sampleRate tr ev tSpeak s
      = InterviewSession.process_accumulated_audio now tSpeak tr ev
          { s with audio_chunks := s.audio_chunks ++ [chunk]
                   audio_encoding := encoding
                   audio_sample_rate := sampleRate } := by
  unfold InterviewSession.handle_audio_chunk
  rw [if_neg (by simp [hA])]
  simp only []
  rw [if_pos ⟨hF, by simp⟩]

/-!  ## Claim C8: statement and witness -/

/-- C8: for any event sequence from a started session, the recorded slide
numbers are exactly `1, 2, ..., |history|` — each appended `Turn` carries
sequence number 1 + the number of previously appended turns — the
history is append-only (every further event only extends it), and the
sequence numbers are strictly increasing. -/
theorem C8_sequence_numbers (tInit tStart : ℚ) (es : List SEvent) :
    ((runSession tInit tStart es).1.history.map Turn.slide
        = List.range' 1 (runSession tInit tStart es).1.history.length)
    ∧ (∀ i (hi : i < (runSession tInit tStart es).1.history.length),
        ((runSession tInit tStart es).1.history.get ⟨i, hi⟩).slide = i + 1)
    ∧ (∀ e, (runSession tInit tStart es).1.history
        <+: (sessionStep (runSession tInit tStart es).1 e).1.history)
    ∧ List.Pairwise (· < ·)
        ((runSession tInit tStart es).1.history.map Turn.slide) := by
  have h0 : historyOK (startedState tInit tStart) := ⟨rfl, rfl⟩
  have hr := historyOK_run (startedState tInit tStart) es h0
  refine ⟨hr.1.2, ?_, fun e => (sessionStep_history _ e hr.1).2, ?_⟩
  · intro i hi
    have hlt : i < ((runSession tInit tStart es).1.history.map Turn.slide).length := by
      simpa using hi
    have h2 := List.get_of_eq hr.1.2 ⟨i, hlt⟩
    rw [List.get_eq_getElem, List.get_eq_getElem, List.getElem_range'_1,
      List.getElem_map] at h2
    rw [List.get_eq_getElem]
    exact h2.trans (Nat.add_comm 1 i)
  · have hp := List.pairwise_lt_range' 1
      (runSessionAux (startedState tInit tStart) es).1.history.length
    rw [← hr.1.2] at hp
    exact hp

/-- An eight-word transcription result (exactly at the threshold). -/
def demoWords : PyStr := "one two three four five six seven eight".toList

/-- A 16000-byte audio chunk (exactly the minimum accepted drain size). -/
def demoChunk : List Nat := List.replicate 16000 0

/-- A plain evaluator result carrying a follow-up question. -/
def demoEval : Evaluation :=
  { score := some 7
    next_response := some ("What does this code block do?".toList) }

/-- One audio event at clock 10 whose oracle chain produces a full
evaluation cycle. -/
def demoEvent : SEvent :=
  SEvent.audio 10 demoChunk ("linear16".toList) 16000 (some demoWords) demoEval 10

lemma demo_step_history_length :
    (sessionStep (startedState 0 0) demoEvent).1.history.length = 1 := by
  have e1 : sessionStep (startedState 0 0) demoEvent
      = InterviewSession.handle_audio_chunk 10 demoChunk ("linear16".toList) 16000
          (some demoWords) demoEval 10 (startedState 0 0) := rfl
  rw [e1, handle_audio_chunk_flush 10 demoChunk ("linear16".toList) 16000
    (some demoWords) demoEval 10 (startedState 0 0) rfl
    (by norm_num [startedState, flush_interval])]
  rw [process_accumulated_audio_transcribed 10 10 demoWords demoEval _
    (by simp)
    (by
      simp only [startedState, List.nil_append, List.flatten_cons,
        List.flatten_nil, List.append_nil, demoChunk, List.length_replicate,
        min_audio_bytes]
      norm_num)
    (by decide)
    (by decide)]
  rw [finalize_transcript_nonempty 10 10 demoEval _ (by decide)]
  rw [generate_response_answered 10 10 demoEval _ _
    (by simp [startedState])
    (by simp [demoEval])
    (by decide)]
  simp [startedState]

lemma demo_run_history_length :
    (runSession 0 0 [demoEvent]).1.history.length = 1 := by
  have e : (runSession 0 0 [demoEvent]).1
      = (sessionStep (startedState 0 0) demoEvent).1 := rfl
  rw [e, demo_step_history_length]

/-- C8 witness: a concrete one-turn session — an audio event whose oracle
chain appends a turn — in which the single appended turn carries
sequence number 1 = 1 + 0 prior turns. -/
theorem C8_sequence_numbers_witness :
    (runSession 0 0 [demoEvent]).1.history.length = 1
    ∧ ((runSession 0 0 [demoEvent]).1.history.get
        ⟨0, by rw [demo_run_history_length]; exact Nat.zero_lt_one⟩).slide = 0 + 1 :=
  ⟨demo_run_history_length, (C8_sequence_numbers 0 0 [demoEvent]).2.1 0 _⟩

/-!  ## Trace projection cons lemmas -/

@[simp] lemma finalizedTexts_nil : finalizedTexts [] = [] := rfl

@[simp] lemma finalizedTexts_cons_transcribe (p : List Nat) (u : ℚ) (tr : List SAction) :
    finalizedTexts (SAction.transcribe p u :: tr) = finalizedTexts tr := rfl

@[simp] lemma finalizedTexts_cons_finalized (t : PyStr) (tr : List SAction) :
    finalizedTexts (SAction.finalized t :: tr) = t :: finalizedTexts tr := rfl

@[simp] lemma finalizedTexts_cons_evalInvoked (t : PyStr) (tr : List SAction) :
    finalizedTexts (SAction.evalInvoked t :: tr) = finalizedTexts tr := rfl

@[simp] lemma finalizedTexts_cons_speak (t : PyStr) (tr : List SAction) :
    finalizedTexts (SAction.speak t :: tr) = finalizedTexts tr := rfl

@[simp] lemma evalTexts_nil : evalTexts [] = [] := rfl

@[simp] lemma evalTexts_cons_transcribe (p : List Nat) (u : ℚ) (tr : List SAction) :
    evalTexts (SAction.transcribe p u :: tr) = evalTexts tr := rfl

@[simp] lemma evalTexts_cons_finalized (t : PyStr) (tr : List SAction) :
    evalTexts (SAction.finalized t :: tr) = evalTexts tr := rfl

@[simp] lemma evalTexts_cons_evalInvoked (t : PyStr) (tr : List SAction) :
    evalTexts (SAction.evalInvoked t :: tr) = t :: evalTexts tr := rfl

@[simp] lemma evalTexts_cons_speak (t : PyStr) (tr : List SAction) :
    evalTexts (SAction.speak t :: tr) = evalTexts tr := rfl

@[simp] lemma transcribeEvents_nil : transcribeEvents [] = [] := rfl

@[simp] lemma transcribeEvents_cons_transcribe (p : List Nat) (u : ℚ)
    (tr : List SAction) :
    transcribeEvents (SAction.transcribe p u :: tr)
      = (p, u) :: transcribeEvents tr := rfl

@[simp] lemma transcribeEvents_cons_finalized (t : PyStr) (tr : List SAction) :
    transcribeEvents (SAction.finalized t :: tr) = transcribeEvents tr := rfl

@[simp] lemma transcribeEvents_cons_evalInvoked (t : PyStr) (tr : List SAction) :
    transcribeEvents (SAction.evalInvoked t :: tr) = transcribeEvents tr := rfl

@[simp] lemma transcribeEvents_cons_speak (t : PyStr) (tr : List SAction) :
    transcribeEvents (SAction.speak t :: tr) = transcribeEvents tr := rfl

@[simp] lemma transcribeEvents_append (t1 t2 : List SAction) :
    transcribeEvents (t1 ++ t2) = transcribeEvents t1 ++ transcribeEvents t2 := by
  simp [transcribeEvents]

/-!  ## Claim C6 -/

@[simp] lemma generate_response_audio_chunks (now tSpeak : ℚ) (ev : Evaluation)
    (tc : PyStr) (s : SessionState) :
    (InterviewSession.generate_response now tSpeak ev tc s).1.audio_chunks
      = s.audio_chunks := by
  unfold InterviewSession.generate_response
  simp only []
  split_ifs <;> rfl

@[simp] lemma generate_response_accumulated (now tSpeak : ℚ) (ev : Evaluation)
    (tc : PyStr) (s : SessionState) :
    (InterviewSession.generate_response now tSpeak ev tc s).1.accumulated_transcript
      = s.accumulated_transcript := by
  unfold InterviewSession.generate_response
  simp only []
  split_ifs <;> rfl

@[simp] lemma generate_response_last_transcript_time (now tSpeak : ℚ)
    (ev : Evaluation) (tc : PyStr) (s : SessionState) :
    (InterviewSession.generate_response now tSpeak ev tc s).1.last_transcript_time
      = s.last_transcript_time := by
  unfold InterviewSession.generate_response
  simp only []
  split_ifs <;> rfl

@[simp] lemma generate_response_no_finalized (now tSpeak : ℚ) (ev : Evaluation)
    (tc : PyStr) (s : SessionState) :
    finalizedTexts (InterviewSession.generate_response now tSpeak ev tc s).2 = [] := by
  unfold InterviewSession.generate_response
  simp only []
  split_ifs <;> simp [finalizedTexts]

@[simp] lemma generate_response_no_transcribe (now tSpeak : ℚ) (ev : Evaluation)
    (tc : PyStr) (s : SessionState) :
    transcribeEvents (InterviewSession.generate_response now tSpeak ev tc s).2 = [] := by
  unfold InterviewSession.generate_response
  simp only []
  split_ifs <;> simp [transcribeEvents]

lemma generate_response_evalTexts (now tSpeak : ℚ) (ev : Evaluation)
    (tc : PyStr) (s : SessionState) :
    evalTexts (InterviewSession.generate_response now tSpeak ev tc s).2 = []
    ∨ evalTexts (InterviewSession.generate_response now tSpeak ev tc s).2 = [tc] := by
  unfold InterviewSession.generate_response
  simp only []
  split_ifs <;> simp [evalTexts]

/-- `process_accumulated_audio` on a successful transcription below the
word threshold: text joined, no finalization. -/
lemma process_accumulated_audio_below_threshold (now tSpeak : ℚ) (t : PyStr)
    (ev : Evaluation) (s : SessionState)
    (hne : s.audio_chunks ≠ [])
    (hlen : ¬ (s.audio_chunks.flatten.length < min_audio_bytes))
    (ht : t ≠ [])
    (hwc : ¬ (word_threshold ≤ wordCount (s.accumulated_transcript ++ (' ' :: t)))) :
    InterviewSession.process_accumulated_audio now tSpeak (some t) ev s
      = ({ s with audio_chunks := []
                  last_transcript_time := now
                  accumulated_transcript := s.accumulated_transcript ++ (' ' :: t) },
         [SAction.transcribe s.audio_chunks.flatten now]) := by
  unfold InterviewSession.process_accumulated_audio
  rw [if_neg hne]
  simp only []
  rw [if_neg hlen, if_neg ht, if_neg hwc]

/-- C6: after each successful transcription result is space-joined onto
the running accumulator, finalization fires iff the accumulated word
count reaches the threshold (8 words); on firing the accumulator is
cleared (before the evaluation is triggered, so the joined text is
delivered to the evaluator at most once, and an immediately following
drain is a no-op), the finalized text being the stripped accumulator;
below the threshold the text stays accumulated and nothing is finalized
or delivered. -/
theorem C6_finalization (now tSpeak : ℚ) (ev : Evaluation) (t : PyStr)
    (s : SessionState)
    (hne : s.audio_chunks ≠ [])
    (hlen : ¬ (s.audio_chunks.flatten.length < min_audio_bytes))
    (ht : t ≠ []) :
    (finalizedTexts (InterviewSession.process_accumulated_audio now tSpeak (some t) ev s).2
       = if word_threshold ≤ wordCount (s.accumulated_transcript ++ (' ' :: t))
         then [pyStrip (s.accumulated_transcript ++ (' ' :: t))] else [])
    ∧ (word_threshold ≤ wordCount (s.accumulated_transcript ++ (' ' :: t)) →
        (InterviewSession.process_accumulated_audio now tSpeak (some t) ev s).1.accumulated_transcript = []
        ∧ (evalTexts (InterviewSession.process_accumulated_audio now tSpeak (some t) ev s).2).length ≤ 1
        ∧ (∀ q ∈ evalTexts (InterviewSession.process_accumulated_audio now tSpeak (some t) ev s).2,
            q = pyStrip (s.accumulated_transcript ++ (' ' :: t)))
        ∧ (∀ now2 tSpeak2 tr2 ev2,
            InterviewSession.process_accumulated_audio now2 tSpeak2 tr2 ev2
                (InterviewSession.process_accumulated_audio now tSpeak (some t) ev s).1
              = ((InterviewSession.process_accumulated_audio now tSpeak (some t) ev s).1, [])))
    ∧ (¬ (word_threshold ≤ wordCount (s.accumulated_transcript ++ (' ' :: t))) →
        (InterviewSession.process_accumulated_audio now tSpeak (some t) ev s).1.accumulated_transcript
          = s.accumulated_transcript ++ (' ' :: t)
        ∧ finalizedTexts (InterviewSession.process_accumulated_audio now tSpeak (some t) ev s).2 = []
        ∧ evalTexts (InterviewSession.process_accumulated_audio now tSpeak (some t) ev s).2 = []) := by
  by_cases hwc : word_threshold ≤ wordCount (s.accumulated_transcript ++ (' ' :: t))
  · have hs2 : pyStrip (s.accumulated_transcript ++ (' ' :: t)) ≠ [] :=
      wordCount_pos_pyStrip_ne_nil _ (le_trans (by norm_num [word_threshold]) hwc)
    rw [process_accumulated_audio_transcribed now tSpeak t ev s hne hlen ht hwc]
    rw [finalize_transcript_nonempty now tSpeak ev _ hs2]
    have hev := generate_response_evalTexts now tSpeak ev
      (pyStrip (s.accumulated_transcript ++ (' ' :: t)))
      { s with audio_chunks := []
               last_transcript_time := now
               accumulated_transcript := [] }
    refine ⟨?_, fun _ => ⟨?_, ?_, ?_, ?_⟩, fun hk => absurd hwc hk⟩
    · rw [if_pos hwc]
      simp
    · simp
    · rcases hev with hq | hq <;> simp [hq]
    · intro q hq2
      rcases hev with hq | hq <;> simp [hq] at hq2
      exact hq2
    · intro now2 tSpeak2 tr2 ev2
      have hac : (InterviewSession.generate_response now tSpeak ev
          (pyStrip (s.accumulated_transcript ++ (' ' :: t)))
          { s with audio_chunks := []
                   last_transcript_time := now
                   accumulated_transcript := [] }).1.audio_chunks = [] := by simp
      unfold InterviewSession.process_accumulated_audio
      rw [if_pos hac]
  · rw [process_accumulated_audio_below_threshold now tSpeak t ev s hne hlen ht hwc]
    refine ⟨?_, fun hk => absurd hk hwc, fun _ => ⟨rfl, ?_, ?_⟩⟩
    · simp [finalizedTexts, hwc]
    · simp [finalizedTexts]
    · simp [evalTexts]

/-- A started session holding one pending 16000-byte audio chunk. -/
def c6State : SessionState :=
  { startedState 0 0 with audio_chunks := [demoChunk] }

/-- C6 witness: draining the concrete buffer at clock 5 with an
eight-word transcription finalizes exactly the joined stripped text. -/
theorem C6_finalization_witness :
    finalizedTexts (InterviewSession.process_accumulated_audio 5 5
        (some demoWords) demoEval c6State).2
      = [pyStrip (c6State.accumulated_transcript ++ (' ' :: demoWords))] := by
  have h := (C6_finalization 5 5 demoEval demoWords c6State
    (by decide)
    (by
      simp only [c6State, startedState, List.flatten_cons, List.flatten_nil,
        List.append_nil, demoChunk, List.length_replicate, min_audio_bytes]
      norm_num)
    (by decide)).1
  rw [h, if_pos (by decide)]

/-!  ## Claim C7 -/

/-- `handle_screen_share_lost` past its guard, as a full equation. -/
lemma handle_screen_share_lost_eq (t : ℚ) (s : SessionState)
    (hA : s.is_active = true) (hW : s.awaiting_screen_reshare = false) :
    InterviewSession.handle_screen_share_lost t s
      = ({ s with screen_share_active := false
                  screen_share_lost_time := some t
                  awaiting_screen_reshare := true },
         [SAction.speak ("I noticed you stopped sharing your screen. Please reshare to continue the interview, or click End Interview to finish.".toList)]) := by
  unfold InterviewSession.handle_screen_share_lost
  rw [if_neg (by simp [hA, hW])]

/-- `stop` past its guard on a session with nothing left to flush. -/
lemma stop_eq_no_flush (a g : Bool) (now tSpeak : ℚ) (tr : Option PyStr)
    (ev : Evaluation) (s : SessionState)
    (hA : s.is_active = true) (hS : s.is_stopped = false)
    (hAu : s.audio_chunks = []) (hT : pyStrip s.accumulated_transcript = []) :
    InterviewSession.stop a g now tSpeak tr ev s
      = ({ s with is_active := false, is_stopped := true
                  awaiting_screen_reshare := false },
         if a = true ∧ s.history ≠ [] then
           [SAction.terminated a, SAction.reportGenerated]
         else
           [SAction.terminated a, SAction.stoppedPopup]) := by
  unfold InterviewSession.stop
  rw [if_neg (show ¬ (s.is_active = false ∨ s.is_stopped = true) from by
    simp [hA, hS])]
  simp only []
  rw [if_neg (show ¬ (s.audio_chunks ≠ []) from by simp [hAu])]
  dsimp only
  rw [if_neg (show ¬ (pyStrip s.accumulated_transcript ≠ []) from by simp [hT])]
  dsimp only
  split_ifs with h
  · simp
  · simp

/-- C7: from any running, non-awaiting session with drained buffers, a
screen-share loss at `t1` followed by the recovery deadline firing at
`t2` terminates the session exactly once with `auto_ended = true`,
generates exactly one report iff the turn history is non-empty, leaves
the session stopped, and any further deadline firing or `stop()` call is
a silent no-op (no second termination, no second report by this path). -/
theorem C7_timeout_auto_ends_once (s : SessionState) (t1 t2 tSpeak : ℚ)
    (tr : Option PyStr) (ev : Evaluation)
    (hA : s.is_active = true) (hS : s.is_stopped = false)
    (hW : s.awaiting_screen_reshare = false)
    (hAu : s.audio_chunks = []) (hT : pyStrip s.accumulated_transcript = []) :
    terminatedFlags ((InterviewSession.handle_screen_share_lost t1 s).2
        ++ (InterviewSession.screen_share_timeout_checker t2 tSpeak tr ev
              (InterviewSession.handle_screen_share_lost t1 s).1).2)
      = [true]
    ∧ countReport ((InterviewSession.handle_screen_share_lost t1 s).2
        ++ (InterviewSession.screen_share_timeout_checker t2 tSpeak tr ev
              (InterviewSession.handle_screen_share_lost t1 s).1).2)
      = (if s.history = [] then 0 else 1)
    ∧ (InterviewSession.screen_share_timeout_checker t2 tSpeak tr ev
        (InterviewSession.handle_screen_share_lost t1 s).1).1.is_stopped = true
    ∧ (∀ t3 tS3 tr3 ev3,
        (InterviewSession.screen_share_timeout_checker t3 tS3 tr3 ev3
          (InterviewSession.screen_share_timeout_checker t2 tSpeak tr ev
            (InterviewSession.handle_screen_share_lost t1 s).1).1).2 = [])
    ∧ (∀ a g t3 tS3 tr3 ev3,
        (InterviewSession.stop a g t3 tS3 tr3 ev3
          (InterviewSession.screen_share_timeout_checker t2 tSpeak tr ev
            (InterviewSession.handle_screen_share_lost t1 s).1).1).2 = []) := by
  rw [handle_screen_share_lost_eq t1 s hA hW]
  unfold InterviewSession.screen_share_timeout_checker
  rw [if_pos ⟨rfl, hA⟩]
  simp only []
  rw [stop_eq_no_flush true false t2 tSpeak tr ev
    ({ s with screen_share_active := false
              screen_share_lost_time := some t1
              awaiting_screen_reshare := true }) hA hS hAu hT]
  refine ⟨?_, ?_, rfl, ?_, ?_⟩
  · split_ifs <;> simp [terminatedFlags]
  · split_ifs <;> simp_all [countReport]
  · intro t3 tS3 tr3 ev3
    dsimp only
    simp [InterviewSession.screen_share_timeout_checker]
  · intro a g t3 tS3 tr3 ev3
    rw [stop_guarded a g t3 tS3 tr3 ev3 _ (Or.inr rfl)]

/-- A concrete already-recorded turn. -/
def demoTurn : Turn :=
  { slide := 1
    transcript := demoWords
    score := 7
    technical_depth := 7
    clarity := 7
    visual_quality := 5
    is_final_for_topic := true
    conflict := false
    conflict_description := []
    feedback := []
    question := "What does this code block do?".toList
    topic := []
    response_type := []
    screen_context := []
    timestamp := 10 }

/-- A running idle session with one turn of history. -/
def c7State : SessionState := { startedState 0 0 with history := [demoTurn] }

/-- C7 witness: the timeout scenario on the concrete one-turn session —
loss at clock 100, deadline firing at clock 130 — terminates once with
`auto_ended = true` and generates exactly one report. -/
theorem C7_timeout_auto_ends_once_witness :
    terminatedFlags ((InterviewSession.handle_screen_share_lost 100 c7State).2
        ++ (InterviewSession.screen_share_timeout_checker 130 130 none {}
              (InterviewSession.handle_screen_share_lost 100 c7State).1).2)
      = [true]
    ∧ countReport ((InterviewSession.handle_screen_share_lost 100 c7State).2
        ++ (InterviewSession.screen_share_timeout_checker 130 130 none {}
              (InterviewSession.handle_screen_share_lost 100 c7State).1).2)
      = 1 := by
  have h := C7_timeout_auto_ends_once c7State 100 130 130 none {}
    rfl rfl rfl rfl rfl
  refine ⟨h.1, ?_⟩
  rw [h.2.1, if_neg (by decide)]

/-!  ## Claim C5 -/

/-- Recogniser for inbound audio-chunk events. -/
def isAudioEvent : SEvent → Bool
  | .audio _ _ _ _ _ _ _ => true
  | _ => false

/-- Arrival clock of an audio event. -/
def eventTime : SEvent → Option ℚ
  | .audio t _ _ _ _ _ _ => some t
  | _ => none

@[simp] lemma finalize_transcript_no_transcribe (now tSpeak : ℚ) (ev : Evaluation)
    (s : SessionState) :
    transcribeEvents (InterviewSession.finalize_transcript now tSpeak ev s).2 = [] := by
  unfold InterviewSession.finalize_transcript
  simp only []
  split_ifs <;> simp

@[simp] lemma finalize_transcript_last_transcript_time (now tSpeak : ℚ)
    (ev : Evaluation) (s : SessionState) :
    (InterviewSession.finalize_transcript now tSpeak ev s).1.last_transcript_time
      = s.last_transcript_time := by
  unfold InterviewSession.finalize_transcript
  simp only []
  split_ifs <;> simp

/-- A drain (`process_accumulated_audio` on a non-empty buffer) resets
the flush clock to `now` and performs at most one transcription call,
always with at least `min_audio_bytes` of payload, timestamped `now`. -/
lemma process_accumulated_audio_transcribes (now tSpeak : ℚ) (tr : Option PyStr)
    (ev : Evaluation) (s : SessionState) (hne : s.audio_chunks ≠ []) :
    (InterviewSession.process_accumulated_audio now tSpeak tr ev s).1.last_transcript_time = now
    ∧ (transcribeEvents (InterviewSession.process_accumulated_audio now tSpeak tr ev s).2 = []
       ∨ ∃ p, transcribeEvents (InterviewSession.process_accumulated_audio now tSpeak tr ev s).2
              = [(p, now)]
           ∧ min_audio_bytes ≤ p.length) := by
  cases tr with
  | none =>
    unfold InterviewSession.process_accumulated_audio
    rw [if_neg hne]
    simp only []
    split_ifs with h1
    · exact ⟨rfl, Or.inl rfl⟩
    · exact ⟨rfl, Or.inr ⟨s.audio_chunks.flatten, by simp, not_lt.mp h1⟩⟩
  | some t =>
    unfold InterviewSession.process_accumulated_audio
    rw [if_neg hne]
    simp only []
    split_ifs with h1 h2 h3
    · exact ⟨rfl, Or.inl rfl⟩
    · exact ⟨rfl, Or.inr ⟨s.audio_chunks.flatten, by simp, not_lt.mp h1⟩⟩
    · refine ⟨by simp, Or.inr ⟨s.audio_chunks.flatten, ?_, not_lt.mp h1⟩⟩
      simp
    · exact ⟨rfl, Or.inr ⟨s.audio_chunks.flatten, by simp, not_lt.mp h1⟩⟩

/-- One `handle_audio_chunk` step either leaves the flush clock and the
call trace alone, or (only when the flush interval has elapsed) drains at
`now`. -/
@[simp] lemma transcribeTimes_nil : transcribeTimes [] = [] := rfl

@[simp] lemma transcribeTimes_append (t1 t2 : List SAction) :
    transcribeTimes (t1 ++ t2) = transcribeTimes t1 ++ transcribeTimes t2 := by
  simp [transcribeTimes]

lemma transcribeTimes_eq_nil {tr : List SAction}
    (h : transcribeEvents tr = []) : transcribeTimes tr = [] := by
  simp [transcribeTimes, h]

lemma transcribeTimes_eq_single {tr : List SAction} {p : List Nat} {u : ℚ}
    (h : transcribeEvents tr = [(p, u)]) : transcribeTimes tr = [u] := by
  simp [transcribeTimes, h]

/-- One `handle_audio_chunk` step either leaves the flush clock and the
call trace alone, or (only when the flush interval has elapsed) drains at
`now`. -/
lemma handle_audio_chunk_transcribes (now : ℚ) (chunk : List Nat)
    (encoding : PyStr) (sampleRate : Nat) (tr : Option PyStr) (ev : Evaluation)
    (tSpeak : ℚ) (s : SessionState) :
    (transcribeEvents (InterviewSession.handle_audio_chunk now chunk encoding
          sampleRate tr ev tSpeak s).2 = []
      ∧ (InterviewSession.handle_audio_chunk now chunk encoding sampleRate tr ev
          tSpeak s).1.last_transcript_time = s.last_transcript_time)
    ∨ (flush_interval ≤ now - s.last_transcript_time
      ∧ (InterviewSession.handle_audio_chunk now chunk encoding sampleRate tr ev
          tSpeak s).1.last_transcript_time = now
      ∧ (transcribeEvents (InterviewSession.handle_audio_chunk now chunk encoding
            sampleRate tr ev tSpeak s).2 = []
         ∨ ∃ p, transcribeEvents (InterviewSession.handle_audio_chunk now chunk
                encoding sampleRate tr ev tSpeak s).2 = [(p, now)]
             ∧ min_audio_bytes ≤ p.length)) := by
  unfold InterviewSession.handle_audio_chunk
  simp only []
  split_ifs with h1 h2
  · exact Or.inl ⟨rfl, rfl⟩
  · refine Or.inr ⟨h2.1, ?_⟩
    have hd := process_accumulated_audio_transcribes now tSpeak tr ev
      { s with audio_chunks := s.audio_chunks ++ [chunk]
               audio_encoding := encoding
               audio_sample_rate := sampleRate } (by simp)
    exact ⟨hd.1, hd.2⟩
  · exact Or.inl ⟨rfl, rfl⟩

/-- Induction core for C5: over any monotone sequence of audio events,
every transcription call carries at least `min_audio_bytes`, the call
times are spaced at least `flush_interval` apart, they never exceed the
final flush clock, the flush clock is non-decreasing, and every call is
at least `flush_interval` after the initial flush clock. -/
lemma audio_run_transcribes (es : List SEvent) (s : SessionState)
    (hAud : ∀ e ∈ es, isAudioEvent e = true)
    (hMono : List.Chain' (· ≤ ·) (s.last_transcript_time :: es.filterMap eventTime)) :
    (∀ p u, (p, u) ∈ transcribeEvents (runSessionAux s es).2 →
        min_audio_bytes ≤ p.length)
    ∧ List.Chain' (fun a b => a + flush_interval ≤ b)
        (transcribeTimes (runSessionAux s es).2)
    ∧ (∀ u ∈ transcribeTimes (runSessionAux s es).2,
        u ≤ (runSessionAux s es).1.last_transcript_time)
    ∧ s.last_transcript_time ≤ (runSessionAux s es).1.last_transcript_time
    ∧ (∀ u ∈ transcribeTimes (runSessionAux s es).2,
        s.last_transcript_time + flush_interval ≤ u) := by
  induction es generalizing s with
  | nil =>
    refine ⟨?_, ?_, ?_, le_refl _, ?_⟩ <;> simp [runSessionAux, transcribeTimes]
  | cons e rest ih =>
    have he := hAud e (List.mem_cons_self _ _)
    cases e with
    | audio t chunk encoding sampleRate tr ev tSpeak =>
      have hrest : ∀ x ∈ rest, isAudioEvent x = true :=
        fun x hx => hAud x (List.mem_cons_of_mem _ hx)
      have hMono2 : s.last_transcript_time ≤ t
          ∧ List.Chain' (· ≤ ·) (t :: rest.filterMap eventTime) := by
        have hfm : (SEvent.audio t chunk encoding sampleRate tr ev tSpeak :: rest).filterMap eventTime
            = t :: rest.filterMap eventTime := by
          simp [eventTime]
        rw [hfm] at hMono
        exact List.chain'_cons.mp hMono
      have hstep := handle_audio_chunk_transcribes t chunk encoding sampleRate
        tr ev tSpeak s
      have hunf : runSessionAux s
          (SEvent.audio t chunk encoding sampleRate tr ev tSpeak :: rest)
          = ((runSessionAux (InterviewSession.handle_audio_chunk t chunk encoding
                sampleRate tr ev tSpeak s).1 rest).1,
             (InterviewSession.handle_audio_chunk t chunk encoding sampleRate tr
                ev tSpeak s).2
              ++ (runSessionAux (InterviewSession.handle_audio_chunk t chunk
                  encoding sampleRate tr ev tSpeak s).1 rest).2) := rfl
      rw [hunf]
      rcases hstep with ⟨hte, htt⟩ | ⟨hflush, htt, hcall⟩
      · -- no drain: flush clock unchanged, no call recorded
        have hMono3 : List.Chain' (· ≤ ·)
            ((InterviewSession.handle_audio_chunk t chunk encoding sampleRate tr
              ev tSpeak s).1.last_transcript_time :: rest.filterMap eventTime) := by
          rw [htt]
          rcases hfm : rest.filterMap eventTime with _ | ⟨u, us⟩
          · exact List.chain'_singleton _
          · rw [hfm] at hMono2
            exact List.chain'_cons.mpr ⟨le_trans hMono2.1
              (List.chain'_cons.mp hMono2.2).1, (List.chain'_cons.mp hMono2.2).2⟩
        have hrec := ih (InterviewSession.handle_audio_chunk t chunk encoding
          sampleRate tr ev tSpeak s).1 hrest hMono3
        refine ⟨?_, ?_, ?_, ?_, ?_⟩
        · intro p u hp
          rw [transcribeEvents_append, hte, List.nil_append] at hp
          exact hrec.1 p u hp
        · rw [transcribeTimes_append, transcribeTimes_eq_nil hte, List.nil_append]
          exact hrec.2.1
        · rw [transcribeTimes_append, transcribeTimes_eq_nil hte, List.nil_append]
          exact hrec.2.2.1
        · exact le_trans (le_of_eq htt.symm) hrec.2.2.2.1
        · rw [transcribeTimes_append, transcribeTimes_eq_nil hte, List.nil_append]
          intro u hu
          have h5 := hrec.2.2.2.2 u hu
          rw [htt] at h5
          exact h5
      · -- drain at t
        have hMono3 : List.Chain' (· ≤ ·)
            ((InterviewSession.handle_audio_chunk t chunk encoding sampleRate tr
              ev tSpeak s).1.last_transcript_time :: rest.filterMap eventTime) := by
          rw [htt]
          exact hMono2.2
        have hrec := ih (InterviewSession.handle_audio_chunk t chunk encoding
          sampleRate tr ev tSpeak s).1 hrest hMono3
        rcases hcall with hte | ⟨p0, hte, hp0⟩
        · refine ⟨?_, ?_, ?_, ?_, ?_⟩
          · intro p u hp
            rw [transcribeEvents_append, hte, List.nil_append] at hp
            exact hrec.1 p u hp
          · rw [transcribeTimes_append, transcribeTimes_eq_nil hte, List.nil_append]
            exact hrec.2.1
          · rw [transcribeTimes_append, transcribeTimes_eq_nil hte, List.nil_append]
            exact hrec.2.2.1
          · exact le_trans hMono2.1 (le_trans (le_of_eq htt.symm) hrec.2.2.2.1)
          · rw [transcribeTimes_append, transcribeTimes_eq_nil hte, List.nil_append]
            intro u hu
            have h5 := hrec.2.2.2.2 u hu
            rw [htt] at h5
            linarith [hMono2.1]
        · refine ⟨?_, ?_, ?_, ?_, ?_⟩
          · intro p u hp
            rw [transcribeEvents_append, hte] at hp
            rcases List.mem_append.mp hp with hin | hin
            · have hpair := List.mem_singleton.mp hin
              have hpp : p = p0 := congrArg Prod.fst hpair
              rw [hpp]
              exact hp0
            · exact hrec.1 p u hin
          · rw [transcribeTimes_append, transcribeTimes_eq_single hte,
              List.singleton_append]
            refine List.chain'_cons'.mpr ⟨?_, hrec.2.1⟩
            intro y hy
            have hmem := List.mem_of_mem_head? hy
            have h5 := hrec.2.2.2.2 y hmem
            rw [htt] at h5
            exact h5
          · rw [transcribeTimes_append, transcribeTimes_eq_single hte,
              List.singleton_append]
            intro u hu
            rcases List.mem_cons.mp hu with hu | hu
            · rw [hu]
              exact le_trans (le_of_eq htt.symm) hrec.2.2.2.1
            · exact hrec.2.2.1 u hu
          · exact le_trans hMono2.1 (le_trans (le_of_eq htt.symm) hrec.2.2.2.1)
          · rw [transcribeTimes_append, transcribeTimes_eq_single hte,
              List.singleton_append]
            intro u hu
            rcases List.mem_cons.mp hu with hu | hu
            · rw [hu]
              linarith [hflush]
            · have h5 := hrec.2.2.2.2 u hu
              rw [htt] at h5
              linarith [hMono2.1]
    | video hasChange analysis => simp [isAudioEvent] at he
    | shareLost t => simp [isAudioEvent] at he
    | shareRestored => simp [isAudioEvent] at he
    | timerFire t tr ev tSpeak => simp [isAudioEvent] at he
    | stopCmd t tr ev tSpeak => simp [isAudioEvent] at he
    | reportCmd => simp [isAudioEvent] at he
    | userSpeaking => simp [isAudioEvent] at he

/-- C5: for every sequence of incoming audio-chunk events with monotone
arrival clocks (starting no earlier than the construction clock), the
transcription collaborator is invoked at most once per flush interval —
consecutive call times are at least 3 seconds apart — and never with an
empty (indeed, never with a sub-`min_audio_bytes`) buffer: a drained
buffer under 16000 bytes is discarded without a call. -/
theorem C5_flush_pacing (tInit tStart : ℚ) (es : List SEvent)
    (hAud : ∀ e ∈ es, isAudioEvent e = true)
    (hMono : List.Chain' (· ≤ ·) (tInit :: es.filterMap eventTime)) :
    (∀ p u, (p, u) ∈ transcribeEvents (runSession tInit tStart es).2 →
        min_audio_bytes ≤ p.length ∧ p ≠ [])
    ∧ List.Chain' (fun a b => a + flush_interval ≤ b)
        (transcribeTimes (runSession tInit tStart es).2) := by
  have h := audio_run_transcribes es (startedState tInit tStart) hAud hMono
  refine ⟨fun p u hp => ?_, h.2.1⟩
  have hlen := h.1 p u hp
  refine ⟨hlen, ?_⟩
  intro hnil
  rw [hnil] at hlen
  simp [min_audio_bytes] at hlen

lemma demo_run_transcribeTimes :
    transcribeTimes (runSession 0 0 [demoEvent]).2 = [10] := by
  have e1 : (runSession 0 0 [demoEvent]).2
      = (sessionStep (startedState 0 0) demoEvent).2 ++ [] := rfl
  have e2 : sessionStep (startedState 0 0) demoEvent
      = InterviewSession.handle_audio_chunk 10 demoChunk ("linear16".toList) 16000
          (some demoWords) demoEval 10 (startedState 0 0) := rfl
  rw [e1, e2, handle_audio_chunk_flush 10 demoChunk ("linear16".toList) 16000
    (some demoWords) demoEval 10 (startedState 0 0) rfl
    (by norm_num [startedState, flush_interval])]
  rw [process_accumulated_audio_transcribed 10 10 demoWords demoEval _
    (by simp)
    (by
      simp only [startedState, List.nil_append, List.flatten_cons,
        List.flatten_nil, List.append_nil, demoChunk, List.length_replicate,
        min_audio_bytes]
      norm_num)
    (by decide)
    (by decide)]
  rw [finalize_transcript_nonempty 10 10 demoEval _ (by decide)]
  simp [transcribeTimes]

/-- C5 witness: a single concrete audio event at clock 10 that triggers a
transcription call; the call-time list `[10]` trivially satisfies the
spacing chain, and the theorem applies with the monotonicity hypotheses
discharged. -/
theorem C5_flush_pacing_witness :
    List.Chain' (fun a b => a + flush_interval ≤ b)
      (transcribeTimes (runSession 0 0 [demoEvent]).2)
    ∧ transcribeTimes (runSession 0 0 [demoEvent]).2 = [10] :=
  ⟨(C5_flush_pacing 0 0 [demoEvent] (by decide)
      (by
        refine List.chain'_cons.mpr ⟨by norm_num, ?_⟩
        exact List.chain'_singleton _)).2,
   demo_run_transcribeTimes⟩
